import Mathlib

/-!
Verification of the prd-parser core: hierarchy data model and validator,
multi-stage decomposition pipeline, structural-reviewer merge, and the
LLM adapter layer.  Go source is shallowly embedded: pure functions become
Lean functions; the external generation capability and the stdlib JSON
decoder become explicit function parameters; Go slices become lists; Go
`*T` optional fields become `Option`; fallible code returns `Except`.
Go `float64` payload fields are only ever copied, never computed with,
so they are modelled by `Int` to keep equality decidable.
-/

namespace PrdParser

/-- Models a Go `interface\x7b\x7d` context payload: `nil`, a string, or a
structured object (carried opaquely as key/value pairs; the code only ever
tests whether the payload is a string). -/
inductive ContextVal : Type where
  | nullV : ContextVal
  | strV  : String → ContextVal
  | objV  : List (String × String) → ContextVal
deriving DecidableEq, Repr, Inhabited

/-- Go `float64` values in this code are opaque payloads (estimated
durations); modelled as integers so equality stays decidable. -/
abbrev Float64 := Int

/-- Go `type Priority string`. -/
abbrev Priority := String

def priorityCritical : Priority := "critical"
def priorityHigh : Priority := "high"
def priorityMedium : Priority := "medium"
def priorityLow : Priority := "low"
def priorityVeryLow : Priority := "very-low"

/-- TestingRequirements: four optional free-text slots (source: types.go). -/
structure TestingRequirements where
  unitTests : Option String := none
  integrationTests : Option String := none
  typeTests : Option String := none
  e2eTests : Option String := none
deriving DecidableEq, Repr, Inhabited

/-- Subtask: the atomic leaf (source: types.go). -/
structure Subtask where
  tempId : String := ""
  title : String := ""
  description : String := ""
  context : Option String := none
  testing : TestingRequirements := {}
  estimatedMinutes : Option Int := none
  dependsOn : List String := []
  labels : List String := []
deriving DecidableEq, Repr, Inhabited

/-- Task: a unit of work under an Epic (source: types.go). -/
structure Task where
  tempId : String := ""
  title : String := ""
  description : String := ""
  context : ContextVal := .nullV
  designNotes : Option String := none
  testing : TestingRequirements := {}
  priority : Priority := ""
  subtasks : List Subtask := []
  dependsOn : List String := []
  estimatedHours : Option Float64 := none
  labels : List String := []
deriving DecidableEq, Repr, Inhabited

/-- Epic: a major milestone (source: types.go). -/
structure Epic where
  tempId : String := ""
  title : String := ""
  description : String := ""
  context : ContextVal := .nullV
  acceptanceCriteria : List String := []
  testing : TestingRequirements := {}
  tasks : List Task := []
  dependsOn : List String := []
  estimatedDays : Option Float64 := none
  labels : List String := []
deriving DecidableEq, Repr, Inhabited

/-- ProjectContext extracted from the PRD (source: types.go). -/
structure ProjectContext where
  productName : String := ""
  elevatorPitch : String := ""
  targetAudience : String := ""
  businessGoals : List String := []
  userGoals : List String := []
  brandGuidelines : ContextVal := .nullV
  techStack : List String := []
  constraints : List String := []
deriving DecidableEq, Repr, Inhabited

/-- TestingCoverage flags of ResponseMetadata (source: types.go). -/
structure TestingCoverage where
  hasUnitTests : Bool := false
  hasIntegrationTests : Bool := false
  hasTypeTests : Bool := false
  hasE2ETests : Bool := false
deriving DecidableEq, Repr, Inhabited

/-- ResponseMetadata: summary statistics (source: types.go). -/
structure ResponseMetadata where
  totalEpics : Int := 0
  totalTasks : Int := 0
  totalSubtasks : Int := 0
  estimatedTotalDays : Option Float64 := none
  testingCoverage : TestingCoverage := {}
deriving DecidableEq, Repr, Inhabited

/-- ParseResponse: the root aggregate (source: types.go). -/
structure ParseResponse where
  project : ProjectContext := {}
  epics : List Epic := []
  metadata : ResponseMetadata := {}
deriving DecidableEq, Repr, Inhabited

/-- ParseConfig (source: types.go).  The `fullContext` flag is referenced by
multistage.go (`p.config.FullContext`); its struct declaration predates that
field in the provided types.go, so it is included here as the Bool field the
call sites require. -/
structure ParseConfig where
  targetEpics : Int := 3
  tasksPerEpic : Int := 5
  subtasksPerTask : Int := 4
  defaultPriority : Priority := priorityMedium
  testingLevel : String := "comprehensive"
  propagateContext : Bool := true
  fullContext : Bool := false
deriving DecidableEq, Repr, Inhabited

def defaultParseConfig : ParseConfig :=
  { targetEpics := 3
    tasksPerEpic := 5
    subtasksPerTask := 4
    defaultPriority := priorityMedium
    testingLevel := "comprehensive"
    propagateContext := true }

/-- ValidationError (source: types.go). -/
structure ValidationError where
  field : String
  message : String
deriving DecidableEq, Repr, Inhabited

/-- `ValidationError.Error()` (source: types.go). -/
def ValidationError.errorString (e : ValidationError) : String :=
  "validation error: " ++ e.field ++ " - " ++ e.message

/-- Inner loop of `Validate` over `epic.Tasks` with epic index `i`, task
index `j` (source: types.go `Validate`, task-level checks). -/
def validateTasks (i : Nat) (j : Nat) : List Task → Except ValidationError Unit
  | [] => Except.ok ()
  | t :: ts =>
    if t.title = "" then
      Except.error ⟨"epics[" ++ toString i ++ "].tasks[" ++ toString j ++ "].title", "required"⟩
    else if t.subtasks.length = 0 then
      Except.error ⟨"epics[" ++ toString i ++ "].tasks[" ++ toString j ++ "].subtasks",
        "task \x27" ++ t.title ++ "\x27 has empty subtasks array - must decompose into subtasks"⟩
    else validateTasks i (j + 1) ts

/-- Outer loop of `Validate` over `r.Epics` with index `i`
(source: types.go `Validate`, epic-level checks). -/
def validateEpics (i : Nat) : List Epic → Except ValidationError Unit
  | [] => Except.ok ()
  | e :: es =>
    if e.title = "" then
      Except.error ⟨"epics[" ++ toString i ++ "].title", "required"⟩
    else if e.tasks.length = 0 then
      Except.error ⟨"epics[" ++ toString i ++ "].tasks",
        "epic \x27" ++ e.title ++ "\x27 has empty tasks array - must decompose into tasks"⟩
    else
      match validateTasks i 0 e.tasks with
      | Except.error err => Except.error err
      | Except.ok () => validateEpics (i + 1) es

/-- `func (r *ParseResponse) Validate() error` (source: types.go). -/
def ParseResponse.validate (r : ParseResponse) : Except ValidationError Unit :=
  if r.project.productName = "" then
    Except.error ⟨"project.product_name", "required"⟩
  else if r.epics.length = 0 then
    Except.error ⟨"epics", "at least one epic required"⟩
  else validateEpics 0 r.epics

/-- The validity predicate in the spec's words: ProductName non-empty, Epics
non-empty, every Epic has non-empty Title and Tasks, every Task has non-empty
Title and Subtasks.  Stated independently of the source `validate` to compare
the two. -/
def SpecValid (r : ParseResponse) : Prop :=
  r.project.productName ≠ "" ∧ r.epics ≠ [] ∧
    ∀ e ∈ r.epics, e.title ≠ "" ∧ e.tasks ≠ [] ∧
      ∀ t ∈ e.tasks, t.title ≠ "" ∧ t.subtasks ≠ []

/-- Field path of the first violation in the spec's stated check order,
written from the spec's words (check ProductName, then Epics non-empty, then
per-epic Title/Tasks with a task sub-loop), for comparison with `validate`. -/
def specTaskViolation (i : Nat) (j : Nat) : List Task → Option String
  | [] => none
  | t :: ts =>
    if t.title = "" then some ("epics[" ++ toString i ++ "].tasks[" ++ toString j ++ "].title")
    else if t.subtasks = [] then
      some ("epics[" ++ toString i ++ "].tasks[" ++ toString j ++ "].subtasks")
    else specTaskViolation i (j + 1) ts

def specEpicViolation (i : Nat) : List Epic → Option String
  | [] => none
  | e :: es =>
    if e.title = "" then some ("epics[" ++ toString i ++ "].title")
    else if e.tasks = [] then some ("epics[" ++ toString i ++ "].tasks")
    else
      match specTaskViolation i 0 e.tasks with
      | some f => some f
      | none => specEpicViolation (i + 1) es

def specFirstViolation (r : ParseResponse) : Option String :=
  if r.project.productName = "" then some "project.product_name"
  else if r.epics = [] then some "epics"
  else specEpicViolation 0 r.epics

lemma validateTasks_ok_iff (i j : Nat) (ts : List Task) :
    validateTasks i j ts = Except.ok () ↔ ∀ t ∈ ts, t.title ≠ "" ∧ t.subtasks ≠ [] := by
  induction ts generalizing j with
  | nil => simp [validateTasks]
  | cons t ts ih =>
    simp only [validateTasks]
    by_cases h1 : t.title = "" <;> simp only [h1, if_true, if_false, ite_true, ite_false]
    · constructor
      · intro h; cases h
      · intro h
        exact absurd h1 (h t (by simp)).1
    · by_cases h2 : t.subtasks.length = 0
      · simp only [h2, ite_true]
        constructor
        · intro h; cases h
        · intro h
          exact absurd (List.length_eq_zero.mp h2) (h t (by simp)).2
      · simp only [h2, ite_false, ih (j + 1)]
        constructor
        · intro h
          intro x hx
          rcases List.mem_cons.mp hx with hx | hx
          · subst hx
            exact ⟨h1, fun he => h2 (by simp [he])⟩
          · exact h x hx
        · intro h x hx
          exact h x (List.mem_cons_of_mem _ hx)

lemma validateEpics_ok_iff (i : Nat) (es : List Epic) :
    validateEpics i es = Except.ok () ↔
      ∀ e ∈ es, e.title ≠ "" ∧ e.tasks ≠ [] ∧ ∀ t ∈ e.tasks, t.title ≠ "" ∧ t.subtasks ≠ [] := by
  induction es generalizing i with
  | nil => simp [validateEpics]
  | cons e es ih =>
    simp only [validateEpics]
    by_cases h1 : e.title = "" <;> simp only [h1, ite_true, ite_false]
    · constructor
      · intro h; cases h
      · intro h; exact absurd h1 (h e (by simp)).1
    · by_cases h2 : e.tasks.length = 0
      · simp only [h2, ite_true]
        constructor
        · intro h; cases h
        · intro h
          exact absurd (List.length_eq_zero.mp h2) (h e (by simp)).2.1
      · simp only [h2, ite_false]
        cases hv : validateTasks i 0 e.tasks with
        | error err =>
          constructor
          · intro h; cases h
          · intro h
            have := (validateTasks_ok_iff i 0 e.tasks).mpr (h e (by simp)).2.2
            rw [hv] at this; cases this
        | ok u =>
          cases u
          rw [ih (i + 1)]
          constructor
          · intro h x hx
            rcases List.mem_cons.mp hx with hx | hx
            · rw [hx]
              exact ⟨h1, fun he => h2 (by simp [he]), (validateTasks_ok_iff i 0 e.tasks).mp hv⟩
            · exact h x hx
          · intro h x hx
            exact h x (List.mem_cons_of_mem _ hx)

lemma validate_ok_iff (r : ParseResponse) :
    r.validate = Except.ok () ↔ SpecValid r := by
  unfold ParseResponse.validate SpecValid
  by_cases h1 : r.project.productName = "" <;> simp only [h1, ite_true, ite_false]
  · constructor
    · intro h; cases h
    · intro h; exact absurd rfl h.1
  · by_cases h2 : r.epics.length = 0
    · simp only [h2, ite_true]
      constructor
      · intro h; cases h
      · intro h; exact absurd (List.length_eq_zero.mp h2) h.2.1
    · simp only [h2, ite_false, validateEpics_ok_iff]
      constructor
      · intro h
        exact ⟨h1, fun he => h2 (by simp [he]), h⟩
      · intro h; exact h.2.2

lemma validateTasks_error_field (i j : Nat) (ts : List Task) (err : ValidationError)
    (h : validateTasks i j ts = Except.error err) :
    specTaskViolation i j ts = some err.field := by
  induction ts generalizing j with
  | nil => simp [validateTasks] at h
  | cons t ts ih =>
    simp only [validateTasks] at h
    simp only [specTaskViolation]
    by_cases h1 : t.title = "" <;> simp only [h1, ite_true, ite_false] at h ⊢
    · cases h; rfl
    · by_cases h2 : t.subtasks.length = 0 <;> simp only [h2, ite_true, ite_false] at h
      · rw [if_pos (List.length_eq_zero.mp h2)]
        cases h; rfl
      · rw [if_neg (fun he => h2 (by simp [he]))]
        exact ih (j + 1) h

lemma validateTasks_ok_violation_none (i j : Nat) (ts : List Task)
    (h : validateTasks i j ts = Except.ok ()) :
    specTaskViolation i j ts = none := by
  induction ts generalizing j with
  | nil => simp [specTaskViolation]
  | cons t ts ih =>
    simp only [validateTasks] at h
    simp only [specTaskViolation]
    by_cases h1 : t.title = "" <;> simp only [h1, ite_true, ite_false] at h ⊢
    · cases h
    · by_cases h2 : t.subtasks.length = 0 <;> simp only [h2, ite_true, ite_false] at h
      · cases h
      · rw [if_neg (fun he => h2 (by simp [he]))]
        exact ih (j + 1) h

lemma validateEpics_error_field (i : Nat) (es : List Epic) (err : ValidationError)
    (h : validateEpics i es = Except.error err) :
    specEpicViolation i es = some err.field := by
  induction es generalizing i with
  | nil => simp [validateEpics] at h
  | cons e es ih =>
    simp only [validateEpics] at h
    simp only [specEpicViolation]
    by_cases h1 : e.title = "" <;> simp only [h1, ite_true, ite_false] at h ⊢
    · cases h; rfl
    · by_cases h2 : e.tasks.length = 0 <;> simp only [h2, ite_true, ite_false] at h
      · rw [if_pos (List.length_eq_zero.mp h2)]
        cases h; rfl
      · rw [if_neg (fun he => h2 (by simp [he]))]
        cases hv : validateTasks i 0 e.tasks with
        | error err2 =>
          rw [hv] at h
          cases h
          rw [validateTasks_error_field i 0 e.tasks err hv]
        | ok u =>
          cases u
          rw [hv] at h
          rw [validateTasks_ok_violation_none i 0 e.tasks hv]
          exact ih (i + 1) h

lemma validate_error_field (r : ParseResponse) (err : ValidationError)
    (h : r.validate = Except.error err) :
    specFirstViolation r = some err.field := by
  unfold ParseResponse.validate at h
  unfold specFirstViolation
  by_cases h1 : r.project.productName = "" <;> simp only [h1, ite_true, ite_false] at h ⊢
  · cases h; rfl
  · by_cases h2 : r.epics.length = 0 <;> simp only [h2, ite_true, ite_false] at h
    · rw [if_pos (List.length_eq_zero.mp h2)]
      cases h; rfl
    · rw [if_neg (fun he => h2 (by simp [he]))]
      exact validateEpics_error_field 0 r.epics err h

/-- A tree whose only Epic has an empty Tasks array (the spec's concrete
validator scenario). -/
def emptyTasksTree : ParseResponse :=
  { project := { productName := "Test" }
    epics := [{ title := "Epic One", tasks := [] }] }

/-- C3: `Validate` checks, in order, ProductName, Epics non-empty, per-epic
Title and Tasks, per-task Title and Subtasks; it returns ok exactly when all
checks pass, on failure it reports the field path of the first violation in
that order, and a tree whose only Epic has an empty Tasks array yields an
error naming field `epics[0].tasks`. -/
theorem validate_checks_in_order :
    (∀ r : ParseResponse,
        (r.validate = Except.ok () ↔ SpecValid r) ∧
        (∀ err, r.validate = Except.error err → specFirstViolation r = some err.field)) ∧
    emptyTasksTree.validate = Except.error
      ⟨"epics[0].tasks", "epic \x27Epic One\x27 has empty tasks array - must decompose into tasks"⟩ := by
  refine ⟨fun r => ⟨validate_ok_iff r, fun err h => validate_error_field r err h⟩, ?_⟩
  rfl

/-- Witness: `validate_checks_in_order` applied at the concrete example tree. -/
theorem validate_checks_in_order_witness :
    specFirstViolation emptyTasksTree = some "epics[0].tasks" :=
  (validate_checks_in_order.1 emptyTasksTree).2
    ⟨"epics[0].tasks", "epic \x27Epic One\x27 has empty tasks array - must decompose into tasks"⟩
    (by rfl)

/-! ## Structural Reviewer merge (source: review.go, overlay variant) -/

/-- RawReviewResponse: the structure returned by the LLM during review
(source: review.go). -/
structure RawReviewResponse where
  reviewNotes : String := ""
  project : ProjectContext := {}
  epics : List Epic := []
  metadata : ResponseMetadata := {}
deriving DecidableEq, Repr, Inhabited

/-- ReviewResult: result of a review pass (source: review.go). -/
structure ReviewResult where
  response : ParseResponse
  wasModified : Bool
  reviewNotes : String
deriving DecidableEq, Repr, Inhabited

/-- Lookup in the Go map `originalEpicsByID`, built by inserting each epic of
`original.Epics` in order; on duplicate temp ids the later insertion wins, so
lookup returns the last epic bearing the id. -/
def epicById (original : ParseResponse) (id : String) : Option Epic :=
  original.epics.reverse.find? (fun e => e.tempId == id)

/-- Lookup in the Go map `originalTasksByID`, built from the tasks of all
epics in order; later insertions win. -/
def taskById (original : ParseResponse) (id : String) : Option Task :=
  ((original.epics.map (fun e => e.tasks)).flatten).reverse.find? (fun t => t.tempId == id)

/-- Per-task merge step of `mergeReviewedStructure` (source: review.go): a
reviewed task whose id matches an original task starts from the original and
overlays only `DependsOn` and a non-empty `Title`; an unmatched task is taken
as-is (the Go nil-to-empty `Subtasks` defaulting is the identity on lists). -/
def mergeTask (original : ParseResponse) (reviewedTask : Task) : Task :=
  match taskById original reviewedTask.tempId with
  | some origTask =>
      { origTask with
          dependsOn := reviewedTask.dependsOn
          title := if reviewedTask.title = "" then origTask.title else reviewedTask.title }
  | none => reviewedTask

/-- Per-epic merge step of `mergeReviewedStructure` (source: review.go): the
epic-level overlay-or-accept, followed by the task overlay that runs only when
the reviewed epic lists at least one task (the Go nil-to-empty
`AcceptanceCriteria` defaulting is the identity on lists). -/
def mergeEpic (original : ParseResponse) (reviewedEpic : Epic) : Epic :=
  let mergedEpic :=
    match epicById original reviewedEpic.tempId with
    | some origEpic =>
        { origEpic with
            dependsOn := reviewedEpic.dependsOn
            title := if reviewedEpic.title = "" then origEpic.title else reviewedEpic.title }
    | none => reviewedEpic
  if reviewedEpic.tasks.length > 0 then
    { mergedEpic with tasks := reviewedEpic.tasks.map (mergeTask original) }
  else mergedEpic

/-- The Go loop recomputing `TotalTasks` over the merged epics. -/
def countTasks (epics : List Epic) : Int :=
  epics.foldl (fun acc e => acc + (e.tasks.length : Int)) 0

/-- The Go loop recomputing `TotalSubtasks` over the merged epics. -/
def countSubtasks (epics : List Epic) : Int :=
  epics.foldl (fun acc e => e.tasks.foldl (fun acc2 t => acc2 + (t.subtasks.length : Int)) acc) 0

/-- `mergeReviewedStructure` (source: review.go): walk the reviewed epic list,
overlay-or-accept each epic, keep the original project unless the reviewer
supplied a non-empty product name, recompute the count metadata. -/
def mergeReviewedStructure (original : ParseResponse) (reviewed : RawReviewResponse) :
    ParseResponse :=
  let mergedEpics := reviewed.epics.map (mergeEpic original)
  { project := if reviewed.project.productName = "" then original.project else reviewed.project
    epics := mergedEpics
    metadata := { original.metadata with
        totalEpics := (mergedEpics.length : Int)
        totalTasks := countTasks mergedEpics
        totalSubtasks := countSubtasks mergedEpics } }

/-- `ReviewAndFix` (source: review.go, overlay variant).  The external LLM
call `reviewer.GenerateRaw` is modelled by its outcome `llmOutcome`, and the
JSON-extraction routine `parseReviewResponse` by the function `parseFn`
(its JSON decoding is a stdlib boundary); the control flow around them is the
source's. -/
def reviewAndFix (original : ParseResponse) (llmOutcome : Except String String)
    (parseFn : String → Except String RawReviewResponse) : Except String ReviewResult :=
  match llmOutcome with
  | Except.error e => Except.error ("review LLM call failed: " ++ e)
  | Except.ok output =>
    match parseFn output with
    | Except.error e => Except.error ("failed to parse review response: " ++ e)
    | Except.ok rawReviewed =>
      let reviewNotes := rawReviewed.reviewNotes
      let wasModified := (reviewNotes != "No changes needed") && (reviewNotes != "")
      let mergedResponse := mergeReviewedStructure original rawReviewed
      match mergedResponse.validate with
      | Except.error err =>
          Except.ok
            { response := original
              wasModified := false
              reviewNotes := "Review merge failed validation: " ++ err.errorString
                ++ ". Using original structure." }
      | Except.ok _ =>
          Except.ok
            { response := mergedResponse
              wasModified := wasModified
              reviewNotes := reviewNotes }

/-- What the merge does to a reviewed task, stated field-by-field: a matched
task keeps every original field except the overlaid `dependsOn` and (when
non-empty) `title`; an unmatched task is the reviewer's task unchanged. -/
def MergedTaskSpec (original : ParseResponse) (tR tM : Task) : Prop :=
  match taskById original tR.tempId with
  | some tO =>
      tM.tempId = tO.tempId ∧ tM.description = tO.description ∧
      tM.context = tO.context ∧ tM.designNotes = tO.designNotes ∧
      tM.testing = tO.testing ∧ tM.priority = tO.priority ∧
      tM.subtasks = tO.subtasks ∧ tM.estimatedHours = tO.estimatedHours ∧
      tM.labels = tO.labels ∧
      tM.dependsOn = tR.dependsOn ∧
      tM.title = (if tR.title = "" then tO.title else tR.title)
  | none => tM = tR

/-- What the merge does to a reviewed epic, stated field-by-field: a matched
epic keeps every original field except the overlaid `dependsOn` and (when
non-empty) `title`; an unmatched epic keeps the reviewer's own fields; in both
cases an empty reviewed task list leaves the task list of the start epic
untouched, and a non-empty one is merged task-by-task. -/
def MergedEpicSpec (original : ParseResponse) (eR eM : Epic) : Prop :=
  (match epicById original eR.tempId with
   | some eO =>
      eM.tempId = eO.tempId ∧ eM.description = eO.description ∧
      eM.context = eO.context ∧ eM.acceptanceCriteria = eO.acceptanceCriteria ∧
      eM.testing = eO.testing ∧ eM.estimatedDays = eO.estimatedDays ∧
      eM.labels = eO.labels ∧
      eM.dependsOn = eR.dependsOn ∧
      eM.title = (if eR.title = "" then eO.title else eR.title) ∧
      (eR.tasks = [] → eM.tasks = eO.tasks)
   | none =>
      eM.tempId = eR.tempId ∧ eM.description = eR.description ∧
      eM.context = eR.context ∧ eM.acceptanceCriteria = eR.acceptanceCriteria ∧
      eM.testing = eR.testing ∧ eM.estimatedDays = eR.estimatedDays ∧
      eM.labels = eR.labels ∧
      eM.dependsOn = eR.dependsOn ∧
      eM.title = eR.title ∧
      (eR.tasks = [] → eM.tasks = eR.tasks)) ∧
  (eR.tasks ≠ [] →
    eM.tasks.length = eR.tasks.length ∧
    ∀ (j : Nat) (tR : Task), eR.tasks[j]? = some tR →
      ∃ tM, eM.tasks[j]? = some tM ∧ MergedTaskSpec original tR tM)

lemma mergeTask_spec (original : ParseResponse) (tR : Task) :
    MergedTaskSpec original tR (mergeTask original tR) := by
  unfold MergedTaskSpec mergeTask
  cases taskById original tR.tempId with
  | none => rfl
  | some tO => exact ⟨rfl, rfl, rfl, rfl, rfl, rfl, rfl, rfl, rfl, rfl, rfl⟩

lemma mergeEpic_spec (original : ParseResponse) (eR : Epic) :
    MergedEpicSpec original eR (mergeEpic original eR) := by
  unfold MergedEpicSpec mergeEpic
  cases he : epicById original eR.tempId with
  | none =>
    by_cases ht : eR.tasks.length > 0
    · rw [if_pos ht]
      have hne : eR.tasks ≠ [] := by
        intro h0; rw [h0] at ht; simp at ht
      refine ⟨⟨rfl, rfl, rfl, rfl, rfl, rfl, rfl, rfl, rfl, fun h0 => absurd h0 hne⟩, ?_⟩
      intro _
      exact ⟨by simp, fun j tR hj =>
        ⟨mergeTask original tR, by simp [hj], mergeTask_spec original tR⟩⟩
    · rw [if_neg ht]
      refine ⟨⟨rfl, rfl, rfl, rfl, rfl, rfl, rfl, rfl, rfl, fun _ => rfl⟩, ?_⟩
      intro hne
      exact absurd (List.length_pos.mpr hne) ht
  | some eO =>
    by_cases ht : eR.tasks.length > 0
    · rw [if_pos ht]
      have hne : eR.tasks ≠ [] := by
        intro h0; rw [h0] at ht; simp at ht
      refine ⟨⟨rfl, rfl, rfl, rfl, rfl, rfl, rfl, rfl, rfl, fun h0 => absurd h0 hne⟩, ?_⟩
      intro _
      exact ⟨by simp, fun j tR hj =>
        ⟨mergeTask original tR, by simp [hj], mergeTask_spec original tR⟩⟩
    · rw [if_neg ht]
      refine ⟨⟨rfl, rfl, rfl, rfl, rfl, rfl, rfl, rfl, rfl, fun _ => rfl⟩, ?_⟩
      intro hne
      exact absurd (List.length_pos.mpr hne) ht

/-- C1: the reviewer merge keeps, for every matched task, the original task's
description, testing fields and subtask list, overlaying only the reviewer's
non-empty title and its depends_on edges; a reviewed epic or task with no
original match is accepted as the reviewer wrote it; the merged epic list
follows the reviewed order. -/
theorem merge_overlays_structure_keeps_content :
    ∀ (original : ParseResponse) (reviewed : RawReviewResponse),
      (mergeReviewedStructure original reviewed).epics.length = reviewed.epics.length ∧
      ∀ (i : Nat) (eR : Epic), reviewed.epics[i]? = some eR →
        ∃ eM, (mergeReviewedStructure original reviewed).epics[i]? = some eM ∧
          MergedEpicSpec original eR eM := by
  intro original reviewed
  constructor
  · simp [mergeReviewedStructure]
  · intro i eR hi
    refine ⟨mergeEpic original eR, ?_, mergeEpic_spec original eR⟩
    simp [mergeReviewedStructure, List.getElem?_map, hi]

/-- C10: a reviewed epic that matches an original epic but lists no tasks
keeps the original epic's entire task list (subtasks included) unchanged. -/
theorem merge_empty_reviewed_tasks_keeps_original_tasks :
    ∀ (original : ParseResponse) (reviewed : RawReviewResponse) (i : Nat) (eR eO : Epic),
      reviewed.epics[i]? = some eR →
      epicById original eR.tempId = some eO →
      eR.tasks = [] →
      ∃ eM, (mergeReviewedStructure original reviewed).epics[i]? = some eM ∧
        eM.tasks = eO.tasks := by
  intro original reviewed i eR eO hi hmatch hempty
  refine ⟨mergeEpic original eR, ?_, ?_⟩
  · simp [mergeReviewedStructure, List.getElem?_map, hi]
  · unfold mergeEpic
    rw [hmatch, hempty]
    simp

/-- C2: when the merged output of the reviewer fails the Validator,
`ReviewAndFix` returns the original pre-review tree unmodified, with
`wasModified` false and a diagnostic note, as a non-error result. -/
theorem reviewAndFix_falls_back_on_invalid_merge :
    ∀ (original : ParseResponse) (output : String)
      (parseFn : String → Except String RawReviewResponse)
      (raw : RawReviewResponse) (err : ValidationError),
      original.validate = Except.ok () →
      parseFn output = Except.ok raw →
      (mergeReviewedStructure original raw).validate = Except.error err →
      reviewAndFix original (Except.ok output) parseFn =
        Except.ok
          { response := original
            wasModified := false
            reviewNotes := "Review merge failed validation: " ++ err.errorString
              ++ ". Using original structure." } := by
  intro original output parseFn raw err _ hparse hval
  simp [reviewAndFix, hparse, hval]

/-! Concrete sample trees used to instantiate the reviewer-merge theorems. -/

def wSubtask : Subtask := { tempId := "1.1.1", title := "Sub One", description := "leaf work" }

def wTaskOne : Task :=
  { tempId := "1.1", title := "Task One", description := "first task"
    priority := "high", subtasks := [wSubtask]
    testing := { unitTests := some "unit plan" } }

def wTaskTwo : Task :=
  { tempId := "1.2", title := "Task Two", description := "second task"
    priority := "medium", subtasks := [wSubtask] }

def wTaskThree : Task :=
  { tempId := "2.1", title := "Task Three", description := "third task"
    priority := "low", subtasks := [wSubtask] }

def wEpicOne : Epic :=
  { tempId := "1", title := "Epic One", description := "first epic"
    tasks := [wTaskOne, wTaskTwo] }

def wEpicTwo : Epic :=
  { tempId := "2", title := "Epic Two", description := "second epic"
    tasks := [wTaskThree] }

def wOriginal : ParseResponse :=
  { project := { productName := "Widget" }, epics := [wEpicOne, wEpicTwo] }

/-- A review skeleton that reorders the two epics, adds one epic-level
dependency edge, and rewires one task-level dependency edge. -/
def wReviewedEpicA : Epic := { tempId := "2", dependsOn := ["1"] }

def wReviewedEpicB : Epic :=
  { tempId := "1"
    tasks := [{ tempId := "1.1" }, { tempId := "1.2", dependsOn := ["1.1"] }] }

def wReviewed : RawReviewResponse :=
  { reviewNotes := "Reordered epics", epics := [wReviewedEpicA, wReviewedEpicB] }

/-- A review skeleton whose merge is invalid: it keeps only a brand-new epic
with no tasks, so the merged tree fails the Validator. -/
def wReviewedBad : RawReviewResponse :=
  { reviewNotes := "Added a foundation epic"
    epics := [{ tempId := "99", title := "Foundation" }] }

/-- Witness: `merge_overlays_structure_keeps_content` applied to the concrete
original tree and reordering review skeleton, at the reviewed epic of id 1. -/
theorem merge_overlays_structure_keeps_content_witness :
    ∃ eM, (mergeReviewedStructure wOriginal wReviewed).epics[1]? = some eM ∧
      MergedEpicSpec wOriginal wReviewedEpicB eM :=
  (merge_overlays_structure_keeps_content wOriginal wReviewed).2 1 wReviewedEpicB (by rfl)

/-- Witness: `merge_empty_reviewed_tasks_keeps_original_tasks` applied to the
reviewed epic of id 2, which lists no tasks. -/
theorem merge_empty_reviewed_tasks_keeps_original_tasks_witness :
    ∃ eM, (mergeReviewedStructure wOriginal wReviewed).epics[0]? = some eM ∧
      eM.tasks = wEpicTwo.tasks :=
  merge_empty_reviewed_tasks_keeps_original_tasks wOriginal wReviewed 0 wReviewedEpicA wEpicTwo
    (by rfl) (by rfl) (by rfl)

/-- Witness: `reviewAndFix_falls_back_on_invalid_merge` applied to a concrete
valid original tree and a review skeleton whose merge fails validation. -/
theorem reviewAndFix_falls_back_on_invalid_merge_witness :
    reviewAndFix wOriginal (Except.ok "raw review output") (fun _ => Except.ok wReviewedBad) =
      Except.ok
        { response := wOriginal
          wasModified := false
          reviewNotes := "Review merge failed validation: validation error: epics[0].tasks - "
            ++ "epic \x27Foundation\x27 has empty tasks array - must decompose into tasks"
            ++ ". Using original structure." } :=
  reviewAndFix_falls_back_on_invalid_merge wOriginal "raw review output"
    (fun _ => Except.ok wReviewedBad) wReviewedBad
    ⟨"epics[0].tasks", "epic \x27Foundation\x27 has empty tasks array - must decompose into tasks"⟩
    (by rfl) (by rfl) (by rfl)

/-! ## Multi-stage generator (source: multistage.go) -/

/-- EpicSummary: a lightweight epic without tasks, Stage 1 output
(source: multistage.go). -/
structure EpicSummary where
  tempId : String := ""
  title : String := ""
  description : String := ""
  context : ContextVal := .nullV
  acceptanceCriteria : List String := []
  testing : TestingRequirements := {}
  dependsOn : List String := []
  estimatedDays : Option Float64 := none
  labels : List String := []
deriving DecidableEq, Repr, Inhabited

/-- EpicsResponse: the Stage 1 response (source: multistage.go). -/
structure EpicsResponse where
  project : ProjectContext := {}
  epics : List EpicSummary := []
deriving DecidableEq, Repr, Inhabited

/-- The `core.Generator` interface (source: multistage.go).  Each method is a
deterministic function of its arguments; the `context.Context` parameter of
the Go interface carries only cancellation and is dropped. -/
structure Generator where
  generateEpics : String → ParseConfig → Except String EpicsResponse
  generateTasks : Epic → ProjectContext → ParseConfig → String → Except String (List Task)
  generateSubtasks : Task → String → ProjectContext → ParseConfig → String → Except String (List Subtask)

/-- The summary-to-epic conversion done inside the stage-2 worker
(source: multistage.go, `generateTasksParallel`). -/
def epicOfSummary (es : EpicSummary) : Epic :=
  { tempId := es.tempId
    title := es.title
    description := es.description
    context := es.context
    acceptanceCriteria := es.acceptanceCriteria
    testing := es.testing
    dependsOn := es.dependsOn
    estimatedDays := es.estimatedDays
    labels := es.labels }

/-- The PRD string handed to a stage-2/3 worker: the full document when
`FullContext` is set, empty otherwise (source: multistage.go). -/
def prdArg (cfg : ParseConfig) (prd : String) : String :=
  if cfg.fullContext then prd else ""

/-- One stage-2 worker body: convert the summary, call the capability, wrap a
failure with the epic's id as the Go worker writes into `errs[idx]`
(source: multistage.go, `generateTasksParallel`). -/
def stage2Outcome (g : Generator) (project : ProjectContext) (cfg : ParseConfig)
    (prd : String) (es : EpicSummary) : Except String Epic :=
  match g.generateTasks (epicOfSummary es) project cfg (prdArg cfg prd) with
  | Except.error e => Except.error ("epic " ++ es.tempId ++ ": " ++ e)
  | Except.ok tasks => Except.ok { epicOfSummary es with tasks := tasks }

/-- The post-join error scan: Go checks `errs` in slot order and returns the
first non-nil entry (source: multistage.go). -/
def firstErrIn : List (Except String α) → Option String
  | [] => none
  | Except.error e :: _ => some e
  | Except.ok _ :: rest => firstErrIn rest

/-- Value of a successful slot; failed slots keep the zero value their
pre-sized Go result slice was created with (they are never read, because the
error scan returns first). -/
def okD (d : α) : Except String α → α
  | Except.ok a => a
  | Except.error _ => d

/-- Join of a stage's result slots: first recorded error in slot order, else
the list of slot values (source: multistage.go). -/
def collectSlots (d : α) (os : List (Except String α)) : Except String (List α) :=
  match firstErrIn os with
  | some e => Except.error e
  | none => Except.ok (os.map (okD d))

/-- Result slots written in an arbitrary worker-completion order: each worker
owns slot `i` and writes `f i` there exactly once (source: multistage.go,
the index-before-fan-out pattern `results[idx] = ...`). -/
def scatterList (f : Nat → α) (base : List α) (order : List Nat) : List α :=
  order.foldl (fun acc i => acc.set i (f i)) base

/-- Stage 2 with an explicit worker-completion order: the slots are written in
`order`, then joined (source: multistage.go, `generateTasksParallel`). -/
def generateTasksParallelOrd (g : Generator) (project : ProjectContext) (cfg : ParseConfig)
    (prd : String) (summaries : List EpicSummary) (order : List Nat) :
    Except String (List Epic) :=
  collectSlots {}
    (scatterList (fun i => stage2Outcome g project cfg prd (summaries.getD i {}))
      (List.replicate summaries.length (Except.ok {})) order)

/-- Stage 2 joined in the canonical slot order; the schedule-independence
theorem shows every completion order produces this (source: multistage.go,
`generateTasksParallel`). -/
def generateTasksParallel (g : Generator) (project : ProjectContext) (cfg : ParseConfig)
    (prd : String) (summaries : List EpicSummary) : Except String (List Epic) :=
  collectSlots {} (summaries.map (stage2Outcome g project cfg prd))

/-- The epic context string extraction `epic.Context.(string)`
(source: multistage.go, `generateSubtasksParallel`). -/
def ctxStr : ContextVal → String
  | ContextVal.strV s => s
  | _ => ""

/-- One entry of the flattened stage-3 work pool
(source: multistage.go, `taskRef`). -/
structure TaskRef where
  ei : Nat
  ti : Nat
  task : Task
  epicCtx : String
deriving DecidableEq, Repr

/-- Inner loop of the stage-3 flattening over one epic's tasks
(source: multistage.go, `generateSubtasksParallel`). -/
def taskRefsInner (ei : Nat) (ectx : String) (ti : Nat) : List Task → List TaskRef
  | [] => []
  | t :: ts => ⟨ei, ti, t, ectx⟩ :: taskRefsInner ei ectx (ti + 1) ts

/-- Outer loop of the stage-3 flattening over epics
(source: multistage.go, `generateSubtasksParallel`). -/
def taskRefsOuter (ei : Nat) : List Epic → List TaskRef
  | [] => []
  | e :: es => taskRefsInner ei (ctxStr e.context) 0 e.tasks ++ taskRefsOuter (ei + 1) es

def taskRefsOf (epics : List Epic) : List TaskRef :=
  taskRefsOuter 0 epics

/-- One stage-3 worker body (source: multistage.go,
`generateSubtasksParallel`). -/
def stage3Outcome (g : Generator) (project : ProjectContext) (cfg : ParseConfig)
    (prd : String) (r : TaskRef) : Except String (List Subtask) :=
  match g.generateSubtasks r.task r.epicCtx project cfg (prdArg cfg prd) with
  | Except.error e => Except.error ("task " ++ r.task.tempId ++ ": " ++ e)
  | Except.ok subs => Except.ok subs

/-- In-place slice update `l[i] = f(l[i])`; out-of-range indices never occur
in the modelled loops. -/
def updateAt (l : List α) (i : Nat) (f : α → α) : List α :=
  match l[i]? with
  | some x => l.set i (f x)
  | none => l

/-- One step of the subtask write-back loop
`epics[ref.epicIdx].Tasks[ref.taskIdx].Subtasks = results[i]`
(source: multistage.go, `generateSubtasksParallel`). -/
def applyRef (acc : List Epic) (p : TaskRef × List Subtask) : List Epic :=
  updateAt acc p.1.ei (fun e =>
    { e with tasks := updateAt e.tasks p.1.ti (fun t => { t with subtasks := p.2 }) })

/-- The subtask write-back loop over all work items
(source: multistage.go, `generateSubtasksParallel`). -/
def reassign (epics : List Epic) (refs : List TaskRef) (results : List (List Subtask)) :
    List Epic :=
  (refs.zip results).foldl applyRef epics

/-- Stage 3 with an explicit worker-completion order
(source: multistage.go, `generateSubtasksParallel`). -/
def generateSubtasksParallelOrd (g : Generator) (project : ProjectContext) (cfg : ParseConfig)
    (prd : String) (epics : List Epic) (order : List Nat) : Except String (List Epic) :=
  match collectSlots []
      (scatterList (fun i => stage3Outcome g project cfg prd ((taskRefsOf epics).getD i ⟨0, 0, {}, ""⟩))
        (List.replicate (taskRefsOf epics).length (Except.ok [])) order) with
  | Except.error e => Except.error e
  | Except.ok rs => Except.ok (reassign epics (taskRefsOf epics) rs)

/-- Stage 3 joined in the canonical slot order (source: multistage.go,
`generateSubtasksParallel`). -/
def generateSubtasksParallel (g : Generator) (project : ProjectContext) (cfg : ParseConfig)
    (prd : String) (epics : List Epic) : Except String (List Epic) :=
  match collectSlots [] ((taskRefsOf epics).map (stage3Outcome g project cfg prd)) with
  | Except.error e => Except.error e
  | Except.ok rs => Except.ok (reassign epics (taskRefsOf epics) rs)

/-- `func (p *MultiStageParser) Parse` (source: multistage.go): three strictly
sequential stages, metadata recomputed from the completed tree; the hardcoded
all-true testing coverage is what the assembly writes. -/
def parse (g : Generator) (cfg : ParseConfig) (prd : String) : Except String ParseResponse :=
  match g.generateEpics prd cfg with
  | Except.error e => Except.error ("stage 1 (epics) failed: " ++ e)
  | Except.ok epicsResp =>
    match generateTasksParallel g epicsResp.project cfg prd epicsResp.epics with
    | Except.error e => Except.error ("stage 2 (tasks) failed: " ++ e)
    | Except.ok epics =>
      let totalTasks := countTasks epics
      match generateSubtasksParallel g epicsResp.project cfg prd epics with
      | Except.error e => Except.error ("stage 3 (subtasks) failed: " ++ e)
      | Except.ok epics2 =>
        Except.ok
          { project := epicsResp.project
            epics := epics2
            metadata :=
              { totalEpics := (epics2.length : Int)
                totalTasks := totalTasks
                totalSubtasks := countSubtasks epics2
                testingCoverage :=
                  { hasUnitTests := true
                    hasIntegrationTests := true
                    hasTypeTests := true
                    hasE2ETests := true } } }

/-! Slot-writing is schedule-independent: writing `f i` into slot `i` in any
completion order that covers every index yields the canonical slot list. -/

lemma scatterList_getElem? (f : Nat → α) (order : List Nat) (base : List α) (k : Nat) :
    (scatterList f base order)[k]? =
      if k ∈ order ∧ k < base.length then some (f k) else base[k]? := by
  induction order generalizing base with
  | nil => simp [scatterList]
  | cons i rest ih =>
    show (scatterList f (base.set i (f i)) rest)[k]? = _
    rw [ih, List.length_set]
    by_cases hk : k < base.length
    · by_cases hmem : k ∈ rest
      · rw [if_pos (⟨hmem, hk⟩ : k ∈ rest ∧ k < base.length),
          if_pos (⟨List.mem_cons_of_mem i hmem, hk⟩ : k ∈ i :: rest ∧ k < base.length)]
      · rw [if_neg (show ¬(k ∈ rest ∧ k < base.length) from fun hc => hmem hc.1),
          List.getElem?_set]
        by_cases hki : i = k
        · subst hki
          rw [if_pos rfl, if_pos hk,
            if_pos (⟨List.mem_cons_self i rest, hk⟩ : i ∈ i :: rest ∧ i < base.length)]
        · rw [if_neg hki,
            if_neg (show ¬(k ∈ i :: rest ∧ k < base.length) from
              fun hc => (List.mem_cons.mp hc.1).elim (fun h => hki h.symm) hmem)]
    · rw [if_neg (show ¬(k ∈ rest ∧ k < base.length) from fun hc => hk hc.2),
        List.getElem?_set,
        if_neg (show ¬(k ∈ i :: rest ∧ k < base.length) from fun hc => hk hc.2)]
      by_cases hki : i = k
      · subst hki
        rw [if_pos rfl, if_neg (show ¬i < base.length from hk)]
        rw [List.getElem?_eq_none (Nat.le_of_not_lt hk)]
      · rw [if_neg hki]

lemma scatterList_perm (f : Nat → α) (n : Nat) (base : List α) (order : List Nat)
    (hperm : order.Perm (List.range n)) (hlen : base.length = n) :
    scatterList f base order = (List.range n).map f := by
  apply List.ext_getElem?
  intro k
  rw [scatterList_getElem?]
  have hmem : k ∈ order ↔ k < n := by rw [hperm.mem_iff, List.mem_range]
  by_cases hk : k < n
  · rw [if_pos ⟨hmem.mpr hk, hlen ▸ hk⟩]
    simp [List.getElem?_map, List.getElem?_range hk]
  · rw [if_neg (fun hc => hk (hmem.mp hc.1))]
    rw [List.getElem?_eq_none (by rw [hlen]; exact Nat.le_of_not_lt hk),
      List.getElem?_eq_none (by simpa using Nat.le_of_not_lt hk)]

lemma range_map_getD (l : List α) (d : α) (g : α → β) :
    (List.range l.length).map (fun i => g (l.getD i d)) = l.map g := by
  induction l with
  | nil => simp
  | cons x xs ih =>
    rw [List.length_cons, List.range_succ_eq_map]
    rw [List.map_cons, List.map_map]
    have h2 : ((fun i => g ((x :: xs).getD i d)) ∘ Nat.succ) = fun i => g (xs.getD i d) := by
      funext i; rfl
    rw [h2, ih]
    rfl

/-- If every slot holds a success, the error scan finds nothing. -/
lemma firstErrIn_eq_none_iff (os : List (Except String α)) :
    firstErrIn os = none ↔ ∀ o ∈ os, ∃ y, o = Except.ok y := by
  induction os with
  | nil => simp [firstErrIn]
  | cons o rest ih =>
    cases o with
    | error e => simp [firstErrIn]
    | ok y => simp [firstErrIn, ih]

/-- The error scan returns the error of the first failed slot. -/
lemma firstErrIn_of_first (os : List (Except String α)) (i : Nat) (e : String)
    (hi : os[i]? = some (Except.error e))
    (hearlier : ∀ j, j < i → ∀ o, os[j]? = some o → ∃ y, o = Except.ok y) :
    firstErrIn os = some e := by
  induction os generalizing i with
  | nil => simp at hi
  | cons o rest ih =>
    cases i with
    | zero =>
      simp only [List.getElem?_cons_zero, Option.some_inj] at hi
      subst hi
      rfl
    | succ i =>
      obtain ⟨y, hy⟩ := hearlier 0 (Nat.succ_pos i) o (by simp)
      subst hy
      show firstErrIn rest = some e
      exact ih i (by simpa using hi)
        (fun j hj o2 ho2 => hearlier (j + 1) (Nat.succ_lt_succ hj) o2 (by simpa using ho2))

lemma collectSlots_error (d : α) (os : List (Except String α)) (i : Nat) (e : String)
    (hi : os[i]? = some (Except.error e))
    (hearlier : ∀ j, j < i → ∀ o, os[j]? = some o → ∃ y, o = Except.ok y) :
    collectSlots d os = Except.error e := by
  unfold collectSlots
  rw [firstErrIn_of_first os i e hi hearlier]

lemma collectSlots_all_ok (d : α) (os : List (Except String α))
    (h : ∀ o ∈ os, ∃ y, o = Except.ok y) :
    collectSlots d os = Except.ok (os.map (okD d)) := by
  unfold collectSlots
  rw [(firstErrIn_eq_none_iff os).mpr h]

/-! Helper facts about the indexed write-back loop of stage 3. -/

lemma updateAt_cons_zero (x : α) (xs : List α) (f : α → α) :
    updateAt (x :: xs) 0 f = f x :: xs := by
  unfold updateAt
  rw [List.getElem?_cons_zero]
  rfl

lemma updateAt_cons_succ (x : α) (xs : List α) (i : Nat) (f : α → α) :
    updateAt (x :: xs) (i + 1) f = x :: updateAt xs i f := by
  unfold updateAt
  rw [List.getElem?_cons_succ]
  cases h : xs[i]? with
  | none => rfl
  | some y => rfl

lemma updateAt_append (front : List α) (t : α) (rest : List α) (f : α → α) :
    updateAt (front ++ t :: rest) front.length f = front ++ f t :: rest := by
  induction front with
  | nil => exact updateAt_cons_zero t rest f
  | cons x xs ih =>
    rw [List.cons_append, List.length_cons, updateAt_cons_succ, ih, List.cons_append]

lemma zip_map_self (l : List α) (f : α → β) :
    l.zip (l.map f) = l.map (fun x => (x, f x)) := by
  induction l with
  | nil => rfl
  | cons x xs ih => simp [ih]

/-- The value a stage-3 worker leaves in its slot for a given task and epic
context: the generated subtasks, or the slot's zero value on failure. -/
def stage3Val (g : Generator) (project : ProjectContext) (cfg : ParseConfig) (prd : String)
    (t : Task) (ectx : String) : List Subtask :=
  okD [] (g.generateSubtasks t ectx project cfg (prdArg cfg prd))

lemma okD_stage3Outcome (g : Generator) (project : ProjectContext) (cfg : ParseConfig)
    (prd : String) (r : TaskRef) :
    okD [] (stage3Outcome g project cfg prd r) = stage3Val g project cfg prd r.task r.epicCtx := by
  unfold stage3Outcome stage3Val
  cases g.generateSubtasks r.task r.epicCtx project cfg (prdArg cfg prd) with
  | error e => rfl
  | ok subs => rfl

/-- One write-back step expressed over a work item. -/
def stage3Step (g : Generator) (project : ProjectContext) (cfg : ParseConfig) (prd : String)
    (acc : List Epic) (r : TaskRef) : List Epic :=
  applyRef acc (r, okD [] (stage3Outcome g project cfg prd r))

/-- The tree stage 3 produces when every capability call is consulted: every
task gets the subtasks generated for it, everything else unchanged. -/
def resolveSubtasks (g : Generator) (project : ProjectContext) (cfg : ParseConfig)
    (prd : String) (epics : List Epic) : List Epic :=
  epics.map (fun e =>
    { e with tasks := e.tasks.map (fun t =>
        { t with subtasks := stage3Val g project cfg prd t (ctxStr e.context) }) })

def shiftEi (r : TaskRef) : TaskRef := { r with ei := r.ei + 1 }

lemma taskRefsInner_shiftEi (ei : Nat) (ectx : String) (k : Nat) (ts : List Task) :
    taskRefsInner (ei + 1) ectx k ts = (taskRefsInner ei ectx k ts).map shiftEi := by
  induction ts generalizing k with
  | nil => rfl
  | cons t ts ih =>
    show _ :: taskRefsInner (ei + 1) ectx (k + 1) ts = _
    rw [ih]
    rfl

lemma taskRefsOuter_shiftEi (n : Nat) (es : List Epic) :
    taskRefsOuter (n + 1) es = (taskRefsOuter n es).map shiftEi := by
  induction es generalizing n with
  | nil => rfl
  | cons e es ih =>
    show taskRefsInner (n + 1) (ctxStr e.context) 0 e.tasks ++ taskRefsOuter (n + 2) es
        = List.map shiftEi (taskRefsInner n (ctxStr e.context) 0 e.tasks ++ taskRefsOuter (n + 1) es)
    rw [taskRefsInner_shiftEi, ih (n + 1), List.map_append]

lemma foldl_stage3Step_inner (g : Generator) (project : ProjectContext) (cfg : ParseConfig)
    (prd : String) (ectx : String) :
    ∀ (ts front : List Task) (k : Nat) (ecur : Epic) (es : List Epic),
      front.length = k →
      ecur.tasks = front ++ ts →
      (taskRefsInner 0 ectx k ts).foldl (stage3Step g project cfg prd) (ecur :: es)
        = { ecur with tasks := front ++ ts.map (fun t =>
              { t with subtasks := stage3Val g project cfg prd t ectx }) } :: es := by
  intro ts
  induction ts with
  | nil =>
    intro front k ecur es hk hts
    show ecur :: es = _
    rw [List.append_nil] at hts
    rw [List.map_nil, List.append_nil, ← hts]
  | cons t ts ih =>
    intro front k ecur es hk hts
    show (taskRefsInner 0 ectx (k + 1) ts).foldl (stage3Step g project cfg prd)
        (stage3Step g project cfg prd (ecur :: es) ⟨0, k, t, ectx⟩) = _
    have hstep : stage3Step g project cfg prd (ecur :: es) ⟨0, k, t, ectx⟩
        = { ecur with tasks := front ++
            { t with subtasks := stage3Val g project cfg prd t ectx } :: ts } :: es := by
      show applyRef (ecur :: es) _ = _
      unfold applyRef
      rw [updateAt_cons_zero]
      rw [okD_stage3Outcome]
      show ({ ecur with tasks := updateAt ecur.tasks k _ } : Epic) :: es = _
      rw [hts, ← hk, updateAt_append]
    rw [hstep]
    rw [ih (front ++ [{ t with subtasks := stage3Val g project cfg prd t ectx }]) (k + 1)
      { ecur with tasks := front ++ { t with subtasks := stage3Val g project cfg prd t ectx } :: ts }
      es (by simp [hk]) (by rw [List.append_assoc]; rfl)]
    simp [List.append_assoc]

lemma foldl_stage3Step_shifted (g : Generator) (project : ProjectContext) (cfg : ParseConfig)
    (prd : String) :
    ∀ (refs : List TaskRef) (x : Epic) (xs : List Epic),
      refs.foldl (fun acc r => stage3Step g project cfg prd acc (shiftEi r)) (x :: xs)
        = x :: refs.foldl (stage3Step g project cfg prd) xs := by
  intro refs
  induction refs with
  | nil => intro x xs; rfl
  | cons r rs ih =>
    intro x xs
    show rs.foldl _ (stage3Step g project cfg prd (x :: xs) (shiftEi r)) = _
    have hstep : stage3Step g project cfg prd (x :: xs) (shiftEi r)
        = x :: stage3Step g project cfg prd xs r := by
      show applyRef (x :: xs) _ = x :: applyRef xs _
      unfold applyRef
      exact updateAt_cons_succ x xs r.ei _
    rw [hstep, ih]
    rfl

lemma foldl_stage3Step_refs (g : Generator) (project : ProjectContext) (cfg : ParseConfig)
    (prd : String) :
    ∀ epics : List Epic,
      (taskRefsOf epics).foldl (stage3Step g project cfg prd) epics
        = resolveSubtasks g project cfg prd epics := by
  intro epics
  induction epics with
  | nil => rfl
  | cons e es ih =>
    show (taskRefsInner 0 (ctxStr e.context) 0 e.tasks ++ taskRefsOuter 1 es).foldl
        (stage3Step g project cfg prd) (e :: es) = _
    rw [List.foldl_append]
    rw [foldl_stage3Step_inner g project cfg prd (ctxStr e.context) e.tasks [] 0 e es rfl
      (by rw [List.nil_append])]
    rw [taskRefsOuter_shiftEi 0 es, List.foldl_map]
    rw [foldl_stage3Step_shifted]
    unfold taskRefsOf at ih
    rw [ih]
    simp [resolveSubtasks]

/-- The write-back loop, run on the slot values of the work-item list itself,
produces the per-task resolved tree. -/
lemma reassign_closed (g : Generator) (project : ProjectContext) (cfg : ParseConfig)
    (prd : String) (epics : List Epic) :
    reassign epics (taskRefsOf epics)
        ((taskRefsOf epics).map (fun r => okD [] (stage3Outcome g project cfg prd r)))
      = resolveSubtasks g project cfg prd epics := by
  unfold reassign
  rw [zip_map_self, List.foldl_map]
  exact foldl_stage3Step_refs g project cfg prd epics

/-! Stage-level correctness lemmas. -/

lemma stage2Outcome_ok (g : Generator) (project : ProjectContext) (cfg : ParseConfig)
    (prd : String) (es : EpicSummary) (ts : List Task)
    (h : g.generateTasks (epicOfSummary es) project cfg (prdArg cfg prd) = Except.ok ts) :
    stage2Outcome g project cfg prd es = Except.ok { epicOfSummary es with tasks := ts } := by
  unfold stage2Outcome
  rw [h]

lemma stage2Outcome_error (g : Generator) (project : ProjectContext) (cfg : ParseConfig)
    (prd : String) (es : EpicSummary) (e : String)
    (h : g.generateTasks (epicOfSummary es) project cfg (prdArg cfg prd) = Except.error e) :
    stage2Outcome g project cfg prd es = Except.error ("epic " ++ es.tempId ++ ": " ++ e) := by
  unfold stage2Outcome
  rw [h]

lemma stage3Outcome_ok (g : Generator) (project : ProjectContext) (cfg : ParseConfig)
    (prd : String) (r : TaskRef) (subs : List Subtask)
    (h : g.generateSubtasks r.task r.epicCtx project cfg (prdArg cfg prd) = Except.ok subs) :
    stage3Outcome g project cfg prd r = Except.ok subs := by
  unfold stage3Outcome
  rw [h]

lemma stage3Outcome_error (g : Generator) (project : ProjectContext) (cfg : ParseConfig)
    (prd : String) (r : TaskRef) (e : String)
    (h : g.generateSubtasks r.task r.epicCtx project cfg (prdArg cfg prd) = Except.error e) :
    stage3Outcome g project cfg prd r = Except.error ("task " ++ r.task.tempId ++ ": " ++ e) := by
  unfold stage3Outcome
  rw [h]

lemma collectSlots_ok_inv (d : α) (os : List (Except String α)) (l : List α)
    (h : collectSlots d os = Except.ok l) :
    l = os.map (okD d) ∧ ∀ o ∈ os, ∃ y, o = Except.ok y := by
  unfold collectSlots at h
  cases hf : firstErrIn os with
  | some e => rw [hf] at h; cases h
  | none =>
    rw [hf] at h
    cases h
    exact ⟨rfl, (firstErrIn_eq_none_iff os).mp hf⟩

/-- Stage 2 completion-order independence. -/
lemma generateTasksParallelOrd_eq (g : Generator) (project : ProjectContext) (cfg : ParseConfig)
    (prd : String) (summaries : List EpicSummary) (order : List Nat)
    (hperm : order.Perm (List.range summaries.length)) :
    generateTasksParallelOrd g project cfg prd summaries order
      = generateTasksParallel g project cfg prd summaries := by
  unfold generateTasksParallelOrd generateTasksParallel
  rw [scatterList_perm _ summaries.length _ order hperm (List.length_replicate _ _)]
  rw [range_map_getD]

/-- Stage 3 completion-order independence. -/
lemma generateSubtasksParallelOrd_eq (g : Generator) (project : ProjectContext)
    (cfg : ParseConfig) (prd : String) (epics : List Epic) (order : List Nat)
    (hperm : order.Perm (List.range (taskRefsOf epics).length)) :
    generateSubtasksParallelOrd g project cfg prd epics order
      = generateSubtasksParallel g project cfg prd epics := by
  unfold generateSubtasksParallelOrd generateSubtasksParallel
  rw [scatterList_perm _ (taskRefsOf epics).length _ order hperm (List.length_replicate _ _)]
  rw [range_map_getD]

lemma generateTasksParallel_ok_inv (g : Generator) (project : ProjectContext)
    (cfg : ParseConfig) (prd : String) (summaries : List EpicSummary) (epics : List Epic)
    (h : generateTasksParallel g project cfg prd summaries = Except.ok epics) :
    epics = summaries.map (fun es => okD {} (stage2Outcome g project cfg prd es)) ∧
    ∀ es ∈ summaries, ∃ ts,
      g.generateTasks (epicOfSummary es) project cfg (prdArg cfg prd) = Except.ok ts := by
  unfold generateTasksParallel at h
  obtain ⟨hl, hall⟩ := collectSlots_ok_inv _ _ _ h
  refine ⟨by rw [hl, List.map_map]; rfl, fun es hes => ?_⟩
  obtain ⟨y, hy⟩ := hall (stage2Outcome g project cfg prd es) (List.mem_map_of_mem _ hes)
  unfold stage2Outcome at hy
  cases hc : g.generateTasks (epicOfSummary es) project cfg (prdArg cfg prd) with
  | error e => rw [hc] at hy; cases hy
  | ok ts => exact ⟨ts, rfl⟩

lemma generateTasksParallel_error (g : Generator) (project : ProjectContext)
    (cfg : ParseConfig) (prd : String) (summaries : List EpicSummary)
    (i : Nat) (es : EpicSummary) (e : String)
    (hi : summaries[i]? = some es)
    (he : g.generateTasks (epicOfSummary es) project cfg (prdArg cfg prd) = Except.error e)
    (hearlier : ∀ j, j < i → ∀ es2, summaries[j]? = some es2 →
      ∃ ts, g.generateTasks (epicOfSummary es2) project cfg (prdArg cfg prd) = Except.ok ts) :
    generateTasksParallel g project cfg prd summaries
      = Except.error ("epic " ++ es.tempId ++ ": " ++ e) := by
  unfold generateTasksParallel
  apply collectSlots_error
  · rw [List.getElem?_map, hi]
    exact congrArg some (stage2Outcome_error g project cfg prd es e he)
  · intro j hj o ho
    rw [List.getElem?_map] at ho
    cases hs : summaries[j]? with
    | none => rw [hs] at ho; cases ho
    | some es2 =>
      rw [hs] at ho
      have ho2 : stage2Outcome g project cfg prd es2 = o := Option.some.inj ho
      obtain ⟨ts, hts⟩ := hearlier j hj es2 hs
      exact ⟨_, by rw [← ho2]; exact stage2Outcome_ok g project cfg prd es2 ts hts⟩

lemma generateSubtasksParallel_ok_inv (g : Generator) (project : ProjectContext)
    (cfg : ParseConfig) (prd : String) (epics epics2 : List Epic)
    (h : generateSubtasksParallel g project cfg prd epics = Except.ok epics2) :
    epics2 = resolveSubtasks g project cfg prd epics ∧
    ∀ r ∈ taskRefsOf epics, ∃ subs,
      g.generateSubtasks r.task r.epicCtx project cfg (prdArg cfg prd) = Except.ok subs := by
  unfold generateSubtasksParallel at h
  cases hc : collectSlots [] ((taskRefsOf epics).map (stage3Outcome g project cfg prd)) with
  | error e => rw [hc] at h; cases h
  | ok rs =>
    rw [hc] at h
    cases h
    obtain ⟨hl, hall⟩ := collectSlots_ok_inv _ _ _ hc
    constructor
    · rw [hl, List.map_map]
      exact reassign_closed g project cfg prd epics
    · intro r hr
      obtain ⟨y, hy⟩ := hall (stage3Outcome g project cfg prd r) (List.mem_map_of_mem _ hr)
      unfold stage3Outcome at hy
      cases hs : g.generateSubtasks r.task r.epicCtx project cfg (prdArg cfg prd) with
      | error e => rw [hs] at hy; cases hy
      | ok subs => exact ⟨subs, rfl⟩

lemma generateSubtasksParallel_error (g : Generator) (project : ProjectContext)
    (cfg : ParseConfig) (prd : String) (epics : List Epic)
    (j : Nat) (r : TaskRef) (e : String)
    (hj : (taskRefsOf epics)[j]? = some r)
    (he : g.generateSubtasks r.task r.epicCtx project cfg (prdArg cfg prd) = Except.error e)
    (hearlier : ∀ m, m < j → ∀ r2, (taskRefsOf epics)[m]? = some r2 →
      ∃ subs, g.generateSubtasks r2.task r2.epicCtx project cfg (prdArg cfg prd) = Except.ok subs) :
    generateSubtasksParallel g project cfg prd epics
      = Except.error ("task " ++ r.task.tempId ++ ": " ++ e) := by
  unfold generateSubtasksParallel
  have hcol : collectSlots [] ((taskRefsOf epics).map (stage3Outcome g project cfg prd))
      = Except.error ("task " ++ r.task.tempId ++ ": " ++ e) := by
    apply collectSlots_error
    · rw [List.getElem?_map, hj]
      exact congrArg some (stage3Outcome_error g project cfg prd r e he)
    · intro m hm o ho
      rw [List.getElem?_map] at ho
      cases hs : (taskRefsOf epics)[m]? with
      | none => rw [hs] at ho; cases ho
      | some r2 =>
        rw [hs] at ho
        have ho2 : stage3Outcome g project cfg prd r2 = o := Option.some.inj ho
        obtain ⟨subs, hsubs⟩ := hearlier m hm r2 hs
        exact ⟨_, by rw [← ho2]; exact stage3Outcome_ok g project cfg prd r2 subs hsubs⟩
  rw [hcol]

/-- Every task of every epic occurs in the flattened stage-3 work pool with
its epic's context string. -/
lemma taskRefsInner_mem (ei : Nat) (ectx : String) :
    ∀ (ts : List Task) (k : Nat) (t : Task), t ∈ ts →
      ∃ r ∈ taskRefsInner ei ectx k ts, r.task = t ∧ r.epicCtx = ectx := by
  intro ts
  induction ts with
  | nil => intro k t ht; cases ht
  | cons t0 ts ih =>
    intro k t ht
    rcases List.mem_cons.mp ht with h | h
    · exact ⟨⟨ei, k, t0, ectx⟩, List.mem_cons_self _ _, by rw [h], rfl⟩
    · obtain ⟨r, hr, hrt⟩ := ih (k + 1) t h
      exact ⟨r, List.mem_cons_of_mem _ hr, hrt⟩

lemma taskRefsOuter_mem :
    ∀ (es : List Epic) (n : Nat) (e : Epic) (t : Task), e ∈ es → t ∈ e.tasks →
      ∃ r ∈ taskRefsOuter n es, r.task = t ∧ r.epicCtx = ctxStr e.context := by
  intro es
  induction es with
  | nil => intro n e t he; cases he
  | cons e0 es ih =>
    intro n e t he ht
    rcases List.mem_cons.mp he with h | h
    · subst h
      obtain ⟨r, hr, hrt⟩ := taskRefsInner_mem n (ctxStr e.context) e.tasks 0 t ht
      exact ⟨r, List.mem_append_left _ hr, hrt⟩
    · obtain ⟨r, hr, hrt⟩ := ih (n + 1) e t h ht
      exact ⟨r, List.mem_append_right _ hr, hrt⟩

/-! Count bookkeeping. -/

lemma foldl_add_weight (w : α → Int) :
    ∀ (l : List α) (a : Int), l.foldl (fun acc x => acc + w x) a = a + (l.map w).sum := by
  intro l
  induction l with
  | nil => intro a; simp
  | cons x xs ih =>
    intro a
    rw [List.foldl_cons, ih, List.map_cons, List.sum_cons]
    ring

lemma countTasks_eq (l : List Epic) :
    countTasks l = (l.map (fun e => (e.tasks.length : Int))).sum := by
  unfold countTasks
  rw [foldl_add_weight]
  simp

lemma countSubtasks_eq (l : List Epic) :
    countSubtasks l
      = (l.map (fun e => (e.tasks.map (fun t => (t.subtasks.length : Int))).sum)).sum := by
  have key : ∀ (l2 : List Epic) (a : Int),
      l2.foldl (fun acc e => e.tasks.foldl (fun acc2 t => acc2 + (t.subtasks.length : Int)) acc) a
        = a + (l2.map (fun e => (e.tasks.map (fun t => (t.subtasks.length : Int))).sum)).sum := by
    intro l2
    induction l2 with
    | nil => intro a; simp
    | cons e es ih =>
      intro a
      rw [List.foldl_cons, foldl_add_weight, ih, List.map_cons, List.sum_cons]
      ring
  unfold countSubtasks
  rw [key]
  simp

lemma countTasks_resolveSubtasks (g : Generator) (project : ProjectContext) (cfg : ParseConfig)
    (prd : String) (l : List Epic) :
    countTasks (resolveSubtasks g project cfg prd l) = countTasks l := by
  rw [countTasks_eq, countTasks_eq]
  unfold resolveSubtasks
  rw [List.map_map]
  refine congrArg List.sum (List.map_congr_left ?_)
  intro e _
  simp

/-- The deterministic stub capability of the spec's concrete scenario: one
epic "1", two tasks "1.1"/"1.2", two subtasks per task. -/
def stubGen : Generator :=
  { generateEpics := fun _ _ => Except.ok
      { project := { productName := "Todo App" }
        epics := [{ tempId := "1", title := "Todo Epic" }] }
    generateTasks := fun _ _ _ _ => Except.ok
      [{ tempId := "1.1", title := "Create todo" }, { tempId := "1.2", title := "Complete todo" }]
    generateSubtasks := fun t _ _ _ _ => Except.ok
      [{ tempId := t.tempId ++ ".1", title := "Step A" },
       { tempId := t.tempId ++ ".2", title := "Step B" }] }

def todoPrd : String := "# Todo App\n## Features\n1. Create todo\n2. Complete todo"

/-- The tree the stub scenario produces. -/
def stubParsed : ParseResponse := okD {} (parse stubGen defaultParseConfig todoPrd)

/-- C8: after a successful multi-stage run the returned ResponseMetadata is
derived from the completed tree — the epic/task/subtask totals equal the
actual counts in the tree (the testing-coverage flags are the all-true record
assembly writes) — and the concrete one-epic/two-task stub scenario yields
totals 1, 2, 4. -/
theorem parse_metadata_recomputed :
    (∀ (g : Generator) (cfg : ParseConfig) (prd : String) (r : ParseResponse),
      parse g cfg prd = Except.ok r →
        r.metadata.totalEpics = (r.epics.length : Int) ∧
        r.metadata.totalTasks = (r.epics.map (fun e => (e.tasks.length : Int))).sum ∧
        r.metadata.totalSubtasks
          = (r.epics.map (fun e => (e.tasks.map (fun t => (t.subtasks.length : Int))).sum)).sum ∧
        r.metadata.testingCoverage = ⟨true, true, true, true⟩) ∧
    Except.map (fun r => (r.metadata.totalEpics, r.metadata.totalTasks, r.metadata.totalSubtasks))
        (parse stubGen defaultParseConfig todoPrd) = Except.ok (1, 2, 4) := by
  constructor
  · intro g cfg prd r hr
    unfold parse at hr
    cases h1 : g.generateEpics prd cfg with
    | error e => rw [h1] at hr; cases hr
    | ok er =>
      rw [h1] at hr
      cases h2 : generateTasksParallel g er.project cfg prd er.epics with
      | error e => simp only [h2] at hr; cases hr
      | ok epics =>
        simp only [h2] at hr
        cases h3 : generateSubtasksParallel g er.project cfg prd epics with
        | error e => simp only [h3] at hr; cases hr
        | ok epics2 =>
          simp only [h3] at hr
          obtain ⟨heq3, _⟩ := generateSubtasksParallel_ok_inv g er.project cfg prd epics epics2 h3
          have hr2 := hr.symm
          rw [Except.ok.injEq] at hr2
          subst hr2
          refine ⟨rfl, ?_, ?_, rfl⟩
          · show countTasks epics = _
            rw [← countTasks_eq, heq3, countTasks_resolveSubtasks]
          · show countSubtasks epics2 = _
            rw [countSubtasks_eq]
  · rfl

/-- Witness: `parse_metadata_recomputed` applied to the stub scenario run. -/
theorem parse_metadata_recomputed_witness :
    parse stubGen defaultParseConfig todoPrd = Except.ok stubParsed ∧
    stubParsed.metadata.totalEpics = (stubParsed.epics.length : Int) ∧
    stubParsed.metadata.totalTasks
      = (stubParsed.epics.map (fun e => (e.tasks.length : Int))).sum :=
  ⟨rfl,
   (parse_metadata_recomputed.1 stubGen defaultParseConfig todoPrd stubParsed rfl).1,
   (parse_metadata_recomputed.1 stubGen defaultParseConfig todoPrd stubParsed rfl).2.1⟩

/-- C6: each stage-2/stage-3 worker writes its children to the result slot of
its input position, so the assembled lists are completion-order independent,
the epic list keeps the stage-1 order, and every epic/task receives exactly
the children generated for it. -/
theorem parallel_fanout_deterministic_slots :
    ∀ (g : Generator) (project : ProjectContext) (cfg : ParseConfig) (prd : String),
      (∀ (summaries : List EpicSummary) (order : List Nat),
        order.Perm (List.range summaries.length) →
        generateTasksParallelOrd g project cfg prd summaries order
          = generateTasksParallel g project cfg prd summaries) ∧
      (∀ (summaries : List EpicSummary) (epics : List Epic),
        generateTasksParallel g project cfg prd summaries = Except.ok epics →
        epics.length = summaries.length ∧
        ∀ (i : Nat) (es : EpicSummary), summaries[i]? = some es →
          ∃ ts, g.generateTasks (epicOfSummary es) project cfg (prdArg cfg prd) = Except.ok ts ∧
            epics[i]? = some { epicOfSummary es with tasks := ts }) ∧
      (∀ (epics : List Epic) (order : List Nat),
        order.Perm (List.range (taskRefsOf epics).length) →
        generateSubtasksParallelOrd g project cfg prd epics order
          = generateSubtasksParallel g project cfg prd epics) ∧
      (∀ (epics epics2 : List Epic),
        generateSubtasksParallel g project cfg prd epics = Except.ok epics2 →
        epics2.length = epics.length ∧
        ∀ (ei : Nat) (e : Epic), epics[ei]? = some e →
          ∃ e2, epics2[ei]? = some e2 ∧ e2.tempId = e.tempId ∧
            e2.tasks.length = e.tasks.length ∧
            ∀ (ti : Nat) (t : Task), e.tasks[ti]? = some t →
              ∃ subs, g.generateSubtasks t (ctxStr e.context) project cfg (prdArg cfg prd)
                  = Except.ok subs ∧
                e2.tasks[ti]? = some { t with subtasks := subs }) := by
  intro g project cfg prd
  refine ⟨fun summaries order hperm =>
      generateTasksParallelOrd_eq g project cfg prd summaries order hperm,
    ?_,
    fun epics order hperm =>
      generateSubtasksParallelOrd_eq g project cfg prd epics order hperm,
    ?_⟩
  · intro summaries epics h
    obtain ⟨heq, hall⟩ := generateTasksParallel_ok_inv g project cfg prd summaries epics h
    subst heq
    refine ⟨by simp, ?_⟩
    intro i es hi
    obtain ⟨ts, hts⟩ := hall es (List.getElem?_mem hi)
    refine ⟨ts, hts, ?_⟩
    rw [List.getElem?_map, hi]
    refine congrArg some ?_
    show okD {} (stage2Outcome g project cfg prd es) = { epicOfSummary es with tasks := ts }
    rw [stage2Outcome_ok g project cfg prd es ts hts]
    rfl
  · intro epics epics2 h
    obtain ⟨heq, hall⟩ := generateSubtasksParallel_ok_inv g project cfg prd epics epics2 h
    subst heq
    refine ⟨by simp [resolveSubtasks], ?_⟩
    intro ei e hei
    refine ⟨{ e with tasks := e.tasks.map (fun t =>
        { t with subtasks := stage3Val g project cfg prd t (ctxStr e.context) }) },
      ?_, rfl, by simp, ?_⟩
    · show (epics.map _)[ei]? = _
      rw [List.getElem?_map, hei]
      rfl
    intro ti t hti
    obtain ⟨r, hrmem, hrtask, hrctx⟩ :=
      taskRefsOuter_mem epics 0 e t (List.getElem?_mem hei) (List.getElem?_mem hti)
    obtain ⟨subs, hsubs⟩ := hall r hrmem
    rw [hrtask, hrctx] at hsubs
    refine ⟨subs, hsubs, ?_⟩
    rw [List.getElem?_map, hti]
    refine congrArg some ?_
    show { t with subtasks := stage3Val g project cfg prd t (ctxStr e.context) }
        = { t with subtasks := subs }
    rw [show stage3Val g project cfg prd t (ctxStr e.context) = subs from by
      unfold stage3Val; rw [hsubs]; rfl]

/-- Witness: `parallel_fanout_deterministic_slots` at the stub capability with
two epic summaries completed in reversed order, and the slot fact at index 0. -/
theorem parallel_fanout_deterministic_slots_witness :
    generateTasksParallelOrd stubGen {} defaultParseConfig todoPrd
        [{ tempId := "1" }, { tempId := "2" }] [1, 0]
      = generateTasksParallel stubGen {} defaultParseConfig todoPrd
        [{ tempId := "1" }, { tempId := "2" }] :=
  (parallel_fanout_deterministic_slots stubGen {} defaultParseConfig todoPrd).1
    [{ tempId := "1" }, { tempId := "2" }] [1, 0] (by decide)

/-- A capability whose stage-1 call always fails. -/
def failGen : Generator :=
  { generateEpics := fun _ _ => Except.error "boom"
    generateTasks := fun _ _ _ _ => Except.error "unused"
    generateSubtasks := fun _ _ _ _ _ => Except.error "unused" }

/-- C5: multi-stage failure semantics — a stage-1 failure is fatal
immediately; the first failing epic fails stage 2 with an error naming that
epic, and the result does not depend on the subtask generator (stage 3 never
starts); the first failing task fails stage 3 with an error naming that task;
and a successful run with a generator that rejects empty children arrays (as
the LLM layer does, including zero stage-1 epics) is a fully populated tree —
no partial success. -/
theorem parse_stage_failures_are_fatal :
    ∀ (g : Generator) (cfg : ParseConfig) (prd : String),
      (∀ e, g.generateEpics prd cfg = Except.error e →
        parse g cfg prd = Except.error ("stage 1 (epics) failed: " ++ e)) ∧
      (∀ er, g.generateEpics prd cfg = Except.ok er →
        (∀ (i : Nat) (es : EpicSummary) (e : String),
          er.epics[i]? = some es →
          g.generateTasks (epicOfSummary es) er.project cfg (prdArg cfg prd) = Except.error e →
          (∀ j, j < i → ∀ es2, er.epics[j]? = some es2 →
            ∃ ts, g.generateTasks (epicOfSummary es2) er.project cfg (prdArg cfg prd)
              = Except.ok ts) →
          parse g cfg prd
              = Except.error ("stage 2 (tasks) failed: " ++ ("epic " ++ es.tempId ++ ": " ++ e)) ∧
            ∀ g2 : Generator, g2.generateEpics = g.generateEpics →
              g2.generateTasks = g.generateTasks → parse g2 cfg prd = parse g cfg prd) ∧
        (∀ epics, generateTasksParallel g er.project cfg prd er.epics = Except.ok epics →
          ∀ (j : Nat) (r : TaskRef) (e : String),
            (taskRefsOf epics)[j]? = some r →
            g.generateSubtasks r.task r.epicCtx er.project cfg (prdArg cfg prd)
              = Except.error e →
            (∀ m, m < j → ∀ r2, (taskRefsOf epics)[m]? = some r2 →
              ∃ subs, g.generateSubtasks r2.task r2.epicCtx er.project cfg (prdArg cfg prd)
                = Except.ok subs) →
            parse g cfg prd
              = Except.error
                  ("stage 3 (subtasks) failed: " ++ ("task " ++ r.task.tempId ++ ": " ++ e)))) ∧
      ((∀ a b c d, g.generateTasks a b c d ≠ Except.ok []) →
       (∀ a b c d e2, g.generateSubtasks a b c d e2 ≠ Except.ok []) →
       (∀ er, g.generateEpics prd cfg = Except.ok er → er.epics ≠ []) →
       ∀ r, parse g cfg prd = Except.ok r →
         r.epics ≠ [] ∧ ∀ ep ∈ r.epics, ep.tasks ≠ [] ∧ ∀ t ∈ ep.tasks, t.subtasks ≠ []) := by
  intro g cfg prd
  refine ⟨?_, ?_, ?_⟩
  · intro e h
    unfold parse
    rw [h]
  · intro er h1
    constructor
    · intro i es e hi he hearlier
      have herr := generateTasksParallel_error g er.project cfg prd er.epics i es e hi he hearlier
      constructor
      · simp only [parse, h1, herr]
      · intro g2 hge hgt
        have h1b : g2.generateEpics prd cfg = Except.ok er := by rw [hge, h1]
        have herrb : generateTasksParallel g2 er.project cfg prd er.epics
            = Except.error ("epic " ++ es.tempId ++ ": " ++ e) := by
          apply generateTasksParallel_error g2 er.project cfg prd er.epics i es e hi
          · rw [hgt]; exact he
          · intro j hj es2 hs
            rw [hgt]; exact hearlier j hj es2 hs
        simp only [parse, h1, h1b, herr, herrb]
    · intro epics h2 j r e hj he hearlier
      have herr3 := generateSubtasksParallel_error g er.project cfg prd epics j r e hj he hearlier
      simp only [parse, h1, h2, herr3]
  · intro hT hS hE r hr
    unfold parse at hr
    cases h1 : g.generateEpics prd cfg with
    | error e => rw [h1] at hr; cases hr
    | ok er =>
      rw [h1] at hr
      cases h2 : generateTasksParallel g er.project cfg prd er.epics with
      | error e => simp only [h2] at hr; cases hr
      | ok epics =>
        simp only [h2] at hr
        cases h3 : generateSubtasksParallel g er.project cfg prd epics with
        | error e => simp only [h3] at hr; cases hr
        | ok epics2 =>
          simp only [h3] at hr
          have hr2 := hr.symm
          rw [Except.ok.injEq] at hr2
          subst hr2
          obtain ⟨heq2, hall2⟩ := generateTasksParallel_ok_inv g er.project cfg prd er.epics epics h2
          obtain ⟨heq3, hall3⟩ := generateSubtasksParallel_ok_inv g er.project cfg prd epics epics2 h3
          subst heq3
          constructor
          · show resolveSubtasks g er.project cfg prd epics ≠ []
            intro hnil
            unfold resolveSubtasks at hnil
            have hepics : epics = [] := List.map_eq_nil_iff.mp hnil
            rw [heq2] at hepics
            exact hE er h1 (List.map_eq_nil_iff.mp hepics)
          · intro ep hep
            have hep2 : ep ∈ (epics.map (fun e => { e with tasks := e.tasks.map (fun t =>
                { t with subtasks := stage3Val g er.project cfg prd t (ctxStr e.context) }) })) := hep
            obtain ⟨e2, he2, heq⟩ := List.mem_map.mp hep2
            subst heq
            constructor
            · show e2.tasks.map _ ≠ []
              intro hnil
              have h0 : e2.tasks = [] := List.map_eq_nil_iff.mp hnil
              rw [heq2] at he2
              obtain ⟨es, hes, he2eq⟩ := List.mem_map.mp he2
              obtain ⟨ts, hts⟩ := hall2 es hes
              have he2form : e2 = { epicOfSummary es with tasks := ts } := by
                rw [← he2eq]
                show okD {} (stage2Outcome g er.project cfg prd es) = _
                rw [stage2Outcome_ok g er.project cfg prd es ts hts]
                rfl
              rw [he2form] at h0
              exact hT (epicOfSummary es) er.project cfg (prdArg cfg prd) (h0 ▸ hts)
            · intro t ht
              obtain ⟨t2, ht2, heqt⟩ := List.mem_map.mp ht
              subst heqt
              show stage3Val g er.project cfg prd t2 (ctxStr e2.context) ≠ []
              obtain ⟨rr, hrmem, hrt, hrc⟩ := taskRefsOuter_mem epics 0 e2 t2 he2 ht2
              obtain ⟨subs, hsubs⟩ := hall3 rr hrmem
              rw [hrt, hrc] at hsubs
              have hval : stage3Val g er.project cfg prd t2 (ctxStr e2.context) = subs := by
                unfold stage3Val
                rw [hsubs]
                rfl
              rw [hval]
              intro h0
              exact hS t2 (ctxStr e2.context) er.project cfg (prdArg cfg prd) (h0 ▸ hsubs)

/-- Witness: `parse_stage_failures_are_fatal` at an always-failing stage-1
capability (first conjunct) and at the stub capability's successful run
(no-partial-success conjunct). -/
theorem parse_stage_failures_are_fatal_witness :
    parse failGen defaultParseConfig todoPrd
        = Except.error ("stage 1 (epics) failed: " ++ "boom") ∧
    (stubParsed.epics ≠ [] ∧
      ∀ ep ∈ stubParsed.epics, ep.tasks ≠ [] ∧ ∀ t ∈ ep.tasks, t.subtasks ≠ []) :=
  ⟨(parse_stage_failures_are_fatal failGen defaultParseConfig todoPrd).1 "boom" rfl,
   (parse_stage_failures_are_fatal stubGen defaultParseConfig todoPrd).2.2
     (by intro a b c d h; simp [stubGen] at h)
     (by intro a b c d e2 h; simp [stubGen] at h)
     (by intro er h; cases h; simp)
     stubParsed rfl⟩

/-! ## Bounded worker-pool semaphore (source: multistage.go)

Each stage guards its capability call with a buffered channel used as a
semaphore: `sem <- struct\x7b\x7d\x7b\x7d` before the call (blocking while the
buffer is full) and `<-sem` after it.  The transition system below is the
standard shallow embedding: a worker is idle, in flight (between acquire and
release, i.e. inside the capability call), or done; an acquire is enabled
only when fewer than `cap` workers are in flight — exactly the blocking send
on a channel with buffer size `cap`. -/

inductive WorkerPhase : Type where
  | idle : WorkerPhase
  | inflight : WorkerPhase
  | done : WorkerPhase
deriving DecidableEq, Repr

/-- Number of workers currently inside a capability call. -/
def inflightCount (s : List WorkerPhase) : Nat :=
  s.countP (fun p => p == WorkerPhase.inflight)

/-- One scheduler step of a stage's worker pool with semaphore capacity
`cap` (source: multistage.go, the `sem <- struct\x7b\x7d\x7b\x7d` /
`<-sem` pair around the capability call). -/
inductive SemStep (cap : Nat) : List WorkerPhase → List WorkerPhase → Prop where
  | acquire (s : List WorkerPhase) (i : Nat)
      (h : s[i]? = some WorkerPhase.idle) (hcap : inflightCount s < cap) :
      SemStep cap s (s.set i WorkerPhase.inflight)
  | release (s : List WorkerPhase) (i : Nat)
      (h : s[i]? = some WorkerPhase.inflight) :
      SemStep cap s (s.set i WorkerPhase.done)

/-- States a pool of `n` workers can reach from all-idle, under any
interleaving. -/
def SemReachable (cap n : Nat) (s : List WorkerPhase) : Prop :=
  Relation.ReflTransGen (SemStep cap) (List.replicate n WorkerPhase.idle) s

/-- `make(chan struct\x7b\x7d, 3)` — the stage-2 bound (source: multistage.go). -/
def stage2Limit : Nat := 3

/-- `make(chan struct\x7b\x7d, 5)` — the stage-3 bound (source: multistage.go). -/
def stage3Limit : Nat := 5

lemma inflightCount_replicate_idle (n : Nat) :
    inflightCount (List.replicate n WorkerPhase.idle) = 0 := by
  induction n with
  | zero => rfl
  | succ n ih =>
    rw [List.replicate_succ]
    unfold inflightCount at ih ⊢
    rw [List.countP_cons]
    simp [ih]

lemma inflightCount_set_acquire (s : List WorkerPhase) (i : Nat)
    (h : s[i]? = some WorkerPhase.idle) :
    inflightCount (s.set i WorkerPhase.inflight) = inflightCount s + 1 := by
  induction s generalizing i with
  | nil => simp at h
  | cons a as ih =>
    cases i with
    | zero =>
      rw [List.getElem?_cons_zero, Option.some_inj] at h
      subst h
      unfold inflightCount
      rw [List.set_cons_zero, List.countP_cons, List.countP_cons]
      rfl
    | succ i =>
      rw [List.getElem?_cons_succ] at h
      unfold inflightCount
      rw [List.set_cons_succ, List.countP_cons, List.countP_cons]
      have := ih i h
      unfold inflightCount at this
      omega

lemma inflightCount_set_release (s : List WorkerPhase) (i : Nat)
    (h : s[i]? = some WorkerPhase.inflight) :
    inflightCount (s.set i WorkerPhase.done) + 1 = inflightCount s := by
  induction s generalizing i with
  | nil => simp at h
  | cons a as ih =>
    cases i with
    | zero =>
      rw [List.getElem?_cons_zero, Option.some_inj] at h
      subst h
      unfold inflightCount
      rw [List.set_cons_zero, List.countP_cons, List.countP_cons]
      rfl
    | succ i =>
      rw [List.getElem?_cons_succ] at h
      unfold inflightCount
      rw [List.set_cons_succ, List.countP_cons, List.countP_cons]
      have := ih i h
      unfold inflightCount at this
      omega

lemma semReachable_inflight_le (cap n : Nat) (s : List WorkerPhase)
    (h : SemReachable cap n s) : inflightCount s ≤ cap := by
  induction h with
  | refl => rw [inflightCount_replicate_idle]; exact Nat.zero_le cap
  | tail _ hstep ih =>
    cases hstep with
    | acquire i hidle hcap =>
      rw [inflightCount_set_acquire _ i hidle]
      exact hcap
    | release i hin =>
      have := inflightCount_set_release _ i hin
      omega

/-- C9: under every interleaving of worker starts and completions, the number
of concurrently in-flight capability calls never exceeds 3 in stage 2 and
never exceeds 5 in stage 3, for every pool size. -/
theorem worker_pool_concurrency_bounded :
    (∀ (n : Nat) (s : List WorkerPhase), SemReachable stage2Limit n s →
        inflightCount s ≤ 3) ∧
    (∀ (n : Nat) (s : List WorkerPhase), SemReachable stage3Limit n s →
        inflightCount s ≤ 5) ∧
    stage2Limit = 3 ∧ stage3Limit = 5 :=
  ⟨fun n s h => semReachable_inflight_le stage2Limit n s h,
   fun n s h => semReachable_inflight_le stage3Limit n s h,
   rfl, rfl⟩

/-- Witness: `worker_pool_concurrency_bounded` at a concrete reachable state
of a four-worker stage-2 pool with two calls in flight. -/
theorem worker_pool_concurrency_bounded_witness :
    inflightCount (((List.replicate 4 WorkerPhase.idle).set 0 WorkerPhase.inflight).set 1
      WorkerPhase.inflight) ≤ 3 :=
  worker_pool_concurrency_bounded.1 4 _
    (Relation.ReflTransGen.tail
      (Relation.ReflTransGen.tail Relation.ReflTransGen.refl
        (SemStep.acquire _ 0 (by decide) (by decide)))
      (SemStep.acquire _ 1 (by decide) (by decide)))

/-! ## LLM adapter layer (source: llm package) -/

/-- The `--output-format json` CLI wrapper envelope
(source: part_015 `extractJSON` / claude_cli.go `cliJSONResponse`). -/
structure CliWrapper where
  wrapperType : String
  result : String
  isError : Bool
deriving DecidableEq, Repr

/-- `strings.Index(s, string(c))` for a single character, as a char index
(inputs here are ASCII, where Go byte indices and char indices coincide). -/
def firstIndexOfChar (s : String) (c : Char) : Option Nat :=
  s.data.findIdx? (fun x => x == c)

/-- `strings.LastIndex(s, string(c))` for a single character. -/
def lastIndexOfChar (s : String) (c : Char) : Option Nat :=
  ((List.range s.data.length).filter (fun i => s.data[i]? == some c)).getLast?

/-- `strings.LastIndex(s, pat)`. -/
def lastIndexOfStr (s pat : String) : Option Nat :=
  ((List.range (s.data.length + 1)).filter (fun i => pat.data.isPrefixOf (s.data.drop i))).getLast?

def charsTake (s : String) (n : Nat) : String := String.mk (s.data.take n)

/-- `s[a:b]` by char index. -/
def strSlice (s : String) (a b : Nat) : String := String.mk ((s.data.take b).drop a)

/-- `strings.TrimSpace` (leading and trailing whitespace removed). -/
def strTrim (s : String) : String :=
  String.mk (((s.data.dropWhile Char.isWhitespace).reverse.dropWhile Char.isWhitespace).reverse)

/-- `strings.HasPrefix`. -/
def strStartsWith (s pat : String) : Bool := pat.data.isPrefixOf s.data

/-- `strings.TrimPrefix` with a prefix of known length / slicing off `n`
leading characters. -/
def strDrop (s : String) (n : Nat) : String := String.mk (s.data.drop n)

/-- Fence stripping and brace-span location of `extractJSON`
(source: part_015, after the wrapper branch). -/
def extractJSONRest (output0 : String) : String :=
  let output := strTrim output0
  let output :=
    if strStartsWith output "```json" then
      let t := strDrop output 7
      let t :=
        match lastIndexOfStr t "```" with
        | some idx => charsTake t idx
        | none => t
      strTrim t
    else if strStartsWith output "```" then
      let t := strDrop output 3
      let t :=
        match lastIndexOfStr t "```" with
        | some idx => charsTake t idx
        | none => t
      strTrim t
    else output
  match firstIndexOfChar output '\x7b', lastIndexOfChar output '\x7d' with
  | some a, some b => if b < a then "" else strSlice output a (b + 1)
  | _, _ => ""

/-- `extractJSON` (source: part_015): unwrap the CLI envelope when present
(`json.Unmarshal` of the wrapper is the decode boundary `wrapDecode`; a
decode failure leaves the text unchanged, an error envelope returns ""),
strip markdown fences, and take the first-`\x7b`-to-last-`\x7d` span. -/
def extractJSON (wrapDecode : String → Option CliWrapper) (output0 : String) : String :=
  match (if strStartsWith (strTrim output0) "\x7b\"type\":" then wrapDecode (strTrim output0)
         else none) with
  | some w => if w.isError then "" else extractJSONRest w.result
  | none => extractJSONRest (strTrim output0)

/-- One loop body of `GenerateSubtasks` (source: part_015): one `callClaude`
(modelled by `cap`, indexed by how many calls were made before), JSON
extraction, `json.Unmarshal` into the subtasks payload (the decode boundary
`decodeSubtasks`), and the empty-array check. -/
def subtaskAttempt (cap : Nat → Except String String)
    (wrapDecode : String → Option CliWrapper)
    (decodeSubtasks : String → Except String (List Subtask))
    (taskId : String) (n : Nat) : Except String (List Subtask) :=
  match cap n with
  | Except.error e => Except.error e
  | Except.ok output =>
    if extractJSON wrapDecode output = "" then
      Except.error ("no valid JSON in Stage 3 response for task " ++ taskId)
    else
      match decodeSubtasks (extractJSON wrapDecode output) with
      | Except.error e =>
          Except.error ("Stage 3 JSON parse error for task " ++ taskId ++ ": " ++ e)
      | Except.ok subs =>
          if subs.length = 0 then
            Except.error ("Stage 3 returned no subtasks for task " ++ taskId)
          else Except.ok subs

/-- The retry loop `for attempt := 0; attempt < bound; attempt++ \x7b ... \x7d`
with `lastErr` threading; returns the result together with the number of
capability calls made. -/
def runAttempts (f : Nat → Except String α) : Nat → Nat → String → Except String α × Nat
  | 0, calls, lastErr => (Except.error lastErr, calls)
  | fuel + 1, calls, _lastErr =>
    match f calls with
    | Except.error e => runAttempts f fuel (calls + 1) e
    | Except.ok a => (Except.ok a, calls + 1)

/-- The loop bound of `GenerateSubtasks`: `for attempt := 0; attempt < 2`
(source: part_015). -/
def stage3AttemptBound : Nat := 2

/-- `GenerateSubtasks` of the multi-stage LLM generator (source: part_015),
with its capability and JSON-decode boundaries abstracted; the second
component counts the capability calls made. -/
def generateSubtasksLLM (cap : Nat → Except String String)
    (wrapDecode : String → Option CliWrapper)
    (decodeSubtasks : String → Except String (List Subtask))
    (taskId : String) : Except String (List Subtask) × Nat :=
  runAttempts (subtaskAttempt cap wrapDecode decodeSubtasks taskId) stage3AttemptBound 0 ""

/-- A capability stub that always returns unparsable text. -/
def garbageCap : Nat → Except String String := fun _ => Except.ok "this is not json output"

/-- C4 counterexample: a stage-3 work item whose capability always returns
unparsable text is given exactly 2 total attempts — not the 3 total attempts
(2 retries) the claim states. -/
theorem stage3_two_attempts_counterexample :
    (generateSubtasksLLM garbageCap (fun _ => none) (fun _ => Except.error "not reached")
        "1.1").2 = 2 ∧ (2 : Nat) ≠ 3 :=
  ⟨rfl, by decide⟩

/-- C4 (amended): each stage-3 item is retried up to 1 additional time on a
capability error or parse failure (`attempt < 2`); an item whose attempts all
fail is marked failed after exactly 2 capability calls, a first-attempt
success makes 1 call, and a second-attempt success makes 2 calls. -/
theorem stage3_retry_bound :
    ∀ (cap : Nat → Except String String) (wrapDecode : String → Option CliWrapper)
      (decodeSubtasks : String → Except String (List Subtask)) (taskId : String),
      ((∀ n, ∃ e, subtaskAttempt cap wrapDecode decodeSubtasks taskId n = Except.error e) →
        ∃ e, generateSubtasksLLM cap wrapDecode decodeSubtasks taskId = (Except.error e, 2)) ∧
      (∀ subs, subtaskAttempt cap wrapDecode decodeSubtasks taskId 0 = Except.ok subs →
        generateSubtasksLLM cap wrapDecode decodeSubtasks taskId = (Except.ok subs, 1)) ∧
      (∀ e subs, subtaskAttempt cap wrapDecode decodeSubtasks taskId 0 = Except.error e →
        subtaskAttempt cap wrapDecode decodeSubtasks taskId 1 = Except.ok subs →
        generateSubtasksLLM cap wrapDecode decodeSubtasks taskId = (Except.ok subs, 2)) := by
  intro cap wrapDecode decodeSubtasks taskId
  refine ⟨?_, ?_, ?_⟩
  · intro hall
    obtain ⟨e0, he0⟩ := hall 0
    obtain ⟨e1, he1⟩ := hall 1
    refine ⟨e1, ?_⟩
    show runAttempts _ 2 0 "" = _
    unfold runAttempts
    rw [he0]
    unfold runAttempts
    rw [he1]
    rfl
  · intro subs h0
    show runAttempts _ 2 0 "" = _
    unfold runAttempts
    rw [h0]
  · intro e subs h0 h1
    show runAttempts _ 2 0 "" = _
    unfold runAttempts
    rw [h0]
    unfold runAttempts
    rw [h1]

/-- Witness: `stage3_retry_bound` at the always-unparsable stub. -/
theorem stage3_retry_bound_witness :
    ∃ e, generateSubtasksLLM garbageCap (fun _ => none) (fun _ => Except.error "not reached")
      "1.1" = (Except.error e, 2) :=
  (stage3_retry_bound garbageCap (fun _ => none) (fun _ => Except.error "not reached") "1.1").1
    (fun _ => ⟨"no valid JSON in Stage 3 response for task 1.1", rfl⟩)

/-! ## Single-shot Claude CLI adapter (source: claude_cli.go) -/

/-- `const maxRetries = 3` (source: claude_cli.go). -/
def maxRetries : Nat := 3

/-- The retry loop of `ClaudeCLIAdapter.Generate` (source: claude_cli.go):
each iteration makes one `callClaude` (modelled by `cap`, indexed by the
number of calls already made) and on success feeds the output through
`parseJSONResponse` (modelled by `pjr`, which includes the Validator call);
`lastErr`/`lastOutput` thread exactly as in the source, and after the loop a
non-empty `lastOutput` wraps the error with the debug-file note
(`filepath.Join(os.TempDir(), "prd-parser-last-response.txt")`, with
`os.TempDir` modelled by `tmpDir`).  The backoff sleep and progress prints
carry no data and are dropped.  The second component counts capability
calls. -/
def generateLoop (cap : Nat → Except String String)
    (pjr : String → Except String ParseResponse) (tmpDir : String) :
    Nat → Nat → String → String → Except String ParseResponse × Nat
  | 0, calls, lastErr, lastOutput =>
    (if lastOutput ≠ "" then
        Except.error (lastErr ++ " (raw response saved to " ++ tmpDir
          ++ "/prd-parser-last-response.txt)")
      else Except.error lastErr, calls)
  | fuel + 1, calls, _lastErr, _lastOutput =>
    match cap calls with
    | Except.error e => generateLoop cap pjr tmpDir fuel (calls + 1) e ""
    | Except.ok output =>
      match pjr output with
      | Except.error e => generateLoop cap pjr tmpDir fuel (calls + 1) e output
      | Except.ok resp => (Except.ok resp, calls + 1)

/-- `ClaudeCLIAdapter.Generate` (source: claude_cli.go). -/
def generateClaudeCLI (cap : Nat → Except String String)
    (pjr : String → Except String ParseResponse) (tmpDir : String) :
    Except String ParseResponse × Nat :=
  generateLoop cap pjr tmpDir maxRetries 0 "" ""

/-- C7 counterexample: with a capability that always fails, one `Generate`
invocation makes 3 capability calls, refuting "exactly one call with no
internal retry". -/
theorem generate_retries_counterexample :
    (generateClaudeCLI (fun _ => Except.error "claude CLI failed: exit 1")
        (fun _ => Except.error "unused") "/tmp").2 = 3 ∧ (3 : Nat) ≠ 1 :=
  ⟨rfl, by decide⟩

/-- C7 (amended): `Generate` makes up to `maxRetries = 3` capability calls
per invocation, retrying on capability errors and on parse/validation
failures: a first-attempt success makes exactly one call; three capability
failures return the last capability error verbatim after exactly 3 calls;
three parse failures return the last parse error, wrapped with the
debug-file note, after exactly 3 calls. -/
theorem generate_retry_bound :
    ∀ (cap : Nat → Except String String) (pjr : String → Except String ParseResponse)
      (tmpDir : String),
      (∀ out resp, cap 0 = Except.ok out → pjr out = Except.ok resp →
        generateClaudeCLI cap pjr tmpDir = (Except.ok resp, 1)) ∧
      ((∀ n, n < 3 → ∃ e, cap n = Except.error e) →
        ∃ e2, cap 2 = Except.error e2 ∧
          generateClaudeCLI cap pjr tmpDir = (Except.error e2, 3)) ∧
      ((∀ n, n < 3 → ∃ o, o ≠ "" ∧ cap n = Except.ok o) →
        (∀ s, ∃ e, pjr s = Except.error e) →
        ∃ o2 e2, cap 2 = Except.ok o2 ∧ pjr o2 = Except.error e2 ∧
          generateClaudeCLI cap pjr tmpDir
            = (Except.error (e2 ++ " (raw response saved to " ++ tmpDir
                ++ "/prd-parser-last-response.txt)"), 3)) := by
  intro cap pjr tmpDir
  refine ⟨?_, ?_, ?_⟩
  · intro out resp h0 hp
    show generateLoop cap pjr tmpDir 3 0 "" "" = _
    unfold generateLoop
    simp only [h0, hp]
  · intro hall
    obtain ⟨e0, he0⟩ := hall 0 (by decide)
    obtain ⟨e1, he1⟩ := hall 1 (by decide)
    obtain ⟨e2, he2⟩ := hall 2 (by decide)
    refine ⟨e2, he2, ?_⟩
    show generateLoop cap pjr tmpDir 3 0 "" "" = _
    unfold generateLoop
    simp only [he0]
    unfold generateLoop
    simp only [he1]
    unfold generateLoop
    simp only [he2]
    unfold generateLoop
    simp
  · intro hcap hpjr
    obtain ⟨o0, _, ho0⟩ := hcap 0 (by decide)
    obtain ⟨o1, _, ho1⟩ := hcap 1 (by decide)
    obtain ⟨o2, ho2ne, ho2⟩ := hcap 2 (by decide)
    obtain ⟨e0, he0⟩ := hpjr o0
    obtain ⟨e1, he1⟩ := hpjr o1
    obtain ⟨e2, he2⟩ := hpjr o2
    refine ⟨o2, e2, ho2, he2, ?_⟩
    show generateLoop cap pjr tmpDir 3 0 "" "" = _
    unfold generateLoop
    simp only [ho0, he0]
    unfold generateLoop
    simp only [ho1, he1]
    unfold generateLoop
    simp only [ho2, he2]
    unfold generateLoop
    rw [if_pos ho2ne]

/-- Witness: `generate_retry_bound` at an always-failing capability stub. -/
theorem generate_retry_bound_witness :
    ∃ e2, (fun _ => Except.error "claude CLI failed: exit 1" : Nat → Except String String) 2
        = Except.error e2 ∧
      generateClaudeCLI (fun _ => Except.error "claude CLI failed: exit 1")
        (fun _ => Except.error "unused") "/tmp" = (Except.error e2, 3) :=
  (generate_retry_bound (fun _ => Except.error "claude CLI failed: exit 1")
      (fun _ => Except.error "unused") "/tmp").2.1
    (fun _ _ => ⟨"claude CLI failed: exit 1", rfl⟩)

end PrdParser
